import Mathlib

/-!
Verification of the 2D racing simulation (p5.js): vehicle physics
(`Vehicule.update`), player controller (`PlayerCar`), opponent controller
(`FollowerCar`), track queries (`Track`), and the race state machine of the
main sketch.  JavaScript numbers are modelled as real numbers; `p5.Vector`
is modelled by the `Vec` structure below, with each operation translated
from the p5.js semantics actually exercised by the source (`normalize` of a
zero vector is the zero vector, `limit` compares squared magnitudes, `map`
does not clamp).  Rendering, particles, colors and sound are omitted: they
never read or write the simulation state analysed here.
-/

open scoped Classical

noncomputable section

namespace Race

/-- p5.Vector restricted to the 2D operations the source uses. -/
@[ext]
structure Vec where
  x : ℝ
  y : ℝ

instance : Zero Vec := ⟨⟨0, 0⟩⟩

instance : Add Vec := ⟨fun a b => ⟨a.x + b.x, a.y + b.y⟩⟩

instance : Sub Vec := ⟨fun a b => ⟨a.x - b.x, a.y - b.y⟩⟩

instance : SMul ℝ Vec := ⟨fun k v => ⟨k * v.x, k * v.y⟩⟩

theorem Vec.zero_def : (0 : Vec) = ⟨0, 0⟩ := rfl

theorem Vec.add_def (a b : Vec) : a + b = ⟨a.x + b.x, a.y + b.y⟩ := rfl

theorem Vec.sub_def (a b : Vec) : a - b = ⟨a.x - b.x, a.y - b.y⟩ := rfl

theorem Vec.smul_def (k : ℝ) (v : Vec) : k • v = ⟨k * v.x, k * v.y⟩ := rfl

namespace Vec

/-- `v.magSq()`. -/
def magSq (v : Vec) : ℝ := v.x * v.x + v.y * v.y

/-- `v.mag()`. -/
def mag (v : Vec) : ℝ := Real.sqrt v.magSq

/-- `p5.Vector.dist(a, b)`. -/
def dist (a b : Vec) : ℝ := mag (a - b)

/-- `p5.Vector.dot(a, b)`. -/
def dot (a b : Vec) : ℝ := a.x * b.x + a.y * b.y

/-- `v.normalize()`: divides by the magnitude unless it is zero. -/
def normalize (v : Vec) : Vec := if mag v = 0 then v else (1 / mag v) • v

/-- `v.setMag(n)`: `normalize` then scale by `n`. -/
def setMag (n : ℝ) (v : Vec) : Vec := n • normalize v

/-- `v.limit(m)`: rescale to magnitude `m` when the squared magnitude
exceeds `m*m`. -/
def limit (m : ℝ) (v : Vec) : Vec :=
  if m * m < magSq v then (m / mag v) • v else v

/-- `v.lerp(target, amt)`. -/
def lerp (v target : Vec) (amt : ℝ) : Vec := v + amt • (target - v)

/-- `p5.Vector.fromAngle(theta)`: the unit vector at heading `theta`. -/
def fromAngle (theta : ℝ) : Vec := ⟨Real.cos theta, Real.sin theta⟩

/-- `v.heading()`: the `atan2` of the vector, i.e. the complex argument. -/
def heading (v : Vec) : ℝ := Complex.arg ⟨v.x, v.y⟩

theorem magSq_nonneg (v : Vec) : 0 ≤ v.magSq := by
  have hx := mul_self_nonneg v.x
  have hy := mul_self_nonneg v.y
  have := add_nonneg hx hy
  simpa [magSq] using this

theorem mag_nonneg (v : Vec) : 0 ≤ v.mag := Real.sqrt_nonneg _

theorem mag_eq_zero {v : Vec} : v.mag = 0 ↔ v.magSq = 0 := by
  unfold mag
  exact Real.sqrt_eq_zero v.magSq_nonneg

theorem mag_smul (k : ℝ) (v : Vec) : (k • v).mag = |k| * v.mag := by
  have h1 : (k • v).magSq = k ^ 2 * v.magSq := by
    simp only [Vec.smul_def, magSq]; ring
  unfold mag
  rw [h1, Real.sqrt_mul (sq_nonneg k), Real.sqrt_sq_eq_abs]

theorem mag_axis_x (a : ℝ) : mag ⟨a, 0⟩ = |a| := by
  unfold mag magSq
  simpa [sq] using Real.sqrt_sq_eq_abs a

theorem mag_axis_y (a : ℝ) : mag ⟨0, a⟩ = |a| := by
  unfold mag magSq
  simpa [sq] using Real.sqrt_sq_eq_abs a

theorem mag_neg_pair (v : Vec) : mag ⟨-v.x, -v.y⟩ = mag v := by
  unfold mag magSq; ring_nf

theorem mag_pos_of_magSq_pos {v : Vec} (h : 0 < v.magSq) : 0 < v.mag :=
  Real.sqrt_pos.mpr h

/-- `normalize` of a nonzero vector is a unit vector. -/
theorem mag_normalize {v : Vec} (h : v.mag ≠ 0) : v.normalize.mag = 1 := by
  unfold normalize
  rw [if_neg h, mag_smul]
  have hpos : 0 < v.mag := lt_of_le_of_ne v.mag_nonneg (Ne.symm h)
  rw [abs_of_pos (by positivity)]
  field_simp

/-- The magnitude after `limit m` is at most `m` whenever `0 ≤ m`. -/
theorem mag_limit_le {m : ℝ} (hm : 0 ≤ m) (v : Vec) : (limit m v).mag ≤ m := by
  unfold limit
  split
  · next h =>
    have hsq : 0 < v.magSq := lt_of_le_of_lt (mul_self_nonneg m) h
    have hv : 0 < v.mag := mag_pos_of_magSq_pos hsq
    rw [mag_smul, abs_of_nonneg (div_nonneg hm hv.le)]
    rw [div_mul_eq_mul_div, mul_div_assoc, div_self hv.ne.symm, mul_one]
  · next h =>
    have hle : v.magSq ≤ m * m := le_of_not_gt h
    have := Real.sqrt_le_sqrt hle
    calc v.mag = Real.sqrt v.magSq := rfl
      _ ≤ Real.sqrt (m * m) := this
      _ = m := Real.sqrt_mul_self hm

/-- Componentwise shrinking does not increase the magnitude. -/
theorem mag_le_of_abs_le {a b : Vec} (hx : |a.x| ≤ |b.x|) (hy : |a.y| ≤ |b.y|) :
    a.mag ≤ b.mag := by
  unfold mag
  apply Real.sqrt_le_sqrt
  unfold magSq
  have h1 : a.x * a.x ≤ b.x * b.x := by
    have := mul_self_le_mul_self (abs_nonneg a.x) hx
    simpa [abs_mul_abs_self] using this
  have h2 : a.y * a.y ≤ b.y * b.y := by
    have := mul_self_le_mul_self (abs_nonneg a.y) hy
    simpa [abs_mul_abs_self] using this
  linarith

end Vec

/-- p5's `map(n, start1, stop1, start2, stop2)` (no clamping). -/
def p5map (n start1 stop1 start2 stop2 : ℝ) : ℝ :=
  (n - start1) / (stop1 - start1) * (stop2 - start2) + start2

/-- Obstacle kinds generated by `Track.generateObstacles`. -/
inductive ObstacleType
  | cone
  | barrier
  | oil
deriving DecidableEq

/-- An obstacle as produced by `Track.generateObstacles`; the extra barrier
geometry (width/height/angle) is render-only and omitted. -/
structure Obstacle where
  type : ObstacleType
  position : Vec
  radius : ℝ

/-- The `Track` state read by the simulation: level, centerline waypoints,
track width and obstacle list.  (Edges and the render buffer are not read by
any claim under analysis.) -/
structure Track where
  level : ℤ
  waypoints : List Vec
  trackWidth : ℝ
  obstacles : List Obstacle

namespace Track

/-- `Track.getTrackWidth`: `max(100, 160 - level * 6)`. -/
def getTrackWidth (level : ℤ) : ℝ := max 100 (160 - (level : ℝ) * 6)

/-- Waypoint lookup `track.waypoints[i]`; out-of-range access is `undefined`
in the source and faults as soon as it is used, so theorems about the update
loop always carry an in-range/nonempty hypothesis. -/
def wp (t : Track) (i : ℕ) : Vec := t.waypoints.getD i 0

/-- The comparison `d < closestDist` of the scan loop, where the running
minimum starts at `Infinity` (modelled by `none`). -/
def ltInf (d : ℝ) : Option ℝ → Prop
  | none => True
  | some b => d < b

/-- The scan loop of `Track.getClosestWaypointIndex`: carries the running
`closestIndex`/`closestDist` pair; `none` plays the role of the initial
`Infinity`. -/
def closestScan (pos : Vec) : List Vec → ℕ → ℕ × Option ℝ → ℕ × Option ℝ
  | [], _, acc => acc
  | w :: ws, i, (best, bestD) =>
    let d := Vec.dist pos w
    if ltInf d bestD then
      closestScan pos ws (i + 1) (i, some d)
    else
      closestScan pos ws (i + 1) (best, bestD)

/-- `Track.getClosestWaypointIndex`: linear scan for the nearest waypoint,
returning 0 when the list is empty. -/
def getClosestWaypointIndex (t : Track) (pos : Vec) : ℕ :=
  (closestScan pos t.waypoints 0 (0, none)).1

/-- `Track.getTrackBoundaryForce(position, velocity)`.  The source reads
`waypoints[closestIdx]`; when the waypoint list is empty that read yields
`undefined` and `p5.Vector.dist` throws, which is modelled by `none`.
The `velocity` parameter is present in the source signature but unused. -/
def getTrackBoundaryForce (t : Track) (position velocity : Vec) : Option Vec :=
  match t.waypoints[getClosestWaypointIndex t position]? with
  | none => none
  | some trackCenter =>
    let distFromCenter := Vec.dist position trackCenter
    let maxDist := t.trackWidth / 2 - 15
    if maxDist < distFromCenter then
      some (p5map (distFromCenter - maxDist) 0 25 0.3 1.0 •
        (trackCenter - position).normalize)
    else
      some 0

/-- The loop of `Track.checkObstacleCollision`: first obstacle (in
generation order) whose distance to the query point is below its radius. -/
def findHit (position : Vec) : List Obstacle → Option Obstacle
  | [] => none
  | o :: rest =>
    if Vec.dist position o.position < o.radius then some o
    else findHit position rest

/-- `Track.checkObstacleCollision(position)`; `none` models
`{hit: false}`. -/
def checkObstacleCollision (t : Track) (position : Vec) : Option Obstacle :=
  findHit position t.obstacles

/-- The per-obstacle contribution inside `Track.getObstacleAvoidanceForce`. -/
def avoidContribution (position velocity : Vec) (lookAhead : ℝ)
    (obs : Obstacle) : Vec :=
  let toObs := obs.position - position
  let d := toObs.mag
  if d < lookAhead + obs.radius then
    if 0.3 < Vec.dot velocity.normalize toObs.normalize then
      p5map d 0 lookAhead 1.5 0.3 • (Vec.normalize ⟨-toObs.y, toObs.x⟩)
    else 0
  else 0

/-- `Track.getObstacleAvoidanceForce(position, velocity, lookAhead)`:
accumulates the perpendicular deflections of all qualifying obstacles. -/
def getObstacleAvoidanceForce (t : Track) (position velocity : Vec)
    (lookAhead : ℝ) : Vec :=
  t.obstacles.foldl
    (fun avoidForce obs =>
      avoidForce + avoidContribution position velocity lookAhead obs) 0

/-- Correctness of the `closestScan` loop, stated for a suffix `ws` of the
full waypoint list `L` starting at index `i`: whenever the running minimum is
a recorded distance of an in-range index, the final pair is an in-range index
whose distance is a lower bound for every remaining waypoint and for the
running minimum. -/
theorem closestScan_spec (pos : Vec) (L : List Vec) :
    ∀ (ws : List Vec) (i best : ℕ) (bestD : Option ℝ),
      ws = L.drop i →
      (∀ b, bestD = some b →
        best < L.length ∧ Vec.dist pos (L.getD best 0) = b) →
      (∀ b, (closestScan pos ws i (best, bestD)).2 = some b →
        (closestScan pos ws i (best, bestD)).1 < L.length ∧
          Vec.dist pos (L.getD (closestScan pos ws i (best, bestD)).1 0) = b) ∧
      (∀ w ∈ ws, ∃ b, (closestScan pos ws i (best, bestD)).2 = some b ∧
        b ≤ Vec.dist pos w) ∧
      (∀ b0, bestD = some b0 → ∃ b,
        (closestScan pos ws i (best, bestD)).2 = some b ∧ b ≤ b0) := by
  intro ws
  induction ws with
  | nil =>
    intro i best bestD _ hinv
    refine ⟨fun b hb => hinv b hb, fun w hw => absurd hw (List.not_mem_nil w),
      fun b0 hb0 => ⟨b0, hb0, le_refl b0⟩⟩
  | cons w ws ih =>
    intro i best bestD hws hinv
    have hLi : L[i]? = some w := by
      have h0 : (L.drop i)[0]? = some w := by rw [← hws]; simp
      have := List.getElem?_drop L i 0
      rw [h0] at this
      simpa using this.symm
    have hilen : i < L.length := (List.getElem?_eq_some_iff.mp hLi).1
    have hgetD : L.getD i 0 = w := by simp [List.getD_eq_getElem?_getD, hLi]
    have hws2 : ws = L.drop (i + 1) := by
      have := List.tail_drop L i
      rw [← hws] at this
      simpa using this
    by_cases hc : ltInf (Vec.dist pos w) bestD
    · have hstep : closestScan pos (w :: ws) i (best, bestD) =
          closestScan pos ws (i + 1) (i, some (Vec.dist pos w)) := by
        simp only [closestScan]
        rw [if_pos hc]
      obtain ⟨ih1, ih2, ih3⟩ := ih (i + 1) i (some (Vec.dist pos w)) hws2
        (by
          intro b hb
          injection hb with hb
          exact ⟨hilen, by rw [hgetD, hb]⟩)
      rw [hstep]
      refine ⟨ih1, ?_, ?_⟩
      · intro w2 hw2
        rcases List.mem_cons.mp hw2 with h | h
        · obtain ⟨b, hb, hble⟩ := ih3 (Vec.dist pos w) rfl
          exact ⟨b, hb, by rw [h]; exact hble⟩
        · exact ih2 w2 h
      · intro b0 hb0
        obtain ⟨b, hb, hble⟩ := ih3 (Vec.dist pos w) rfl
        have hlt : Vec.dist pos w < b0 := by
          rw [hb0] at hc
          exact hc
        exact ⟨b, hb, le_trans hble (le_of_lt hlt)⟩
    · obtain ⟨b0, hb0⟩ : ∃ b0, bestD = some b0 := by
        cases bestD with
        | none => exact absurd trivial hc
        | some b0 => exact ⟨b0, rfl⟩
      have hge : b0 ≤ Vec.dist pos w := by
        rw [hb0] at hc
        exact le_of_not_gt hc
      have hstep : closestScan pos (w :: ws) i (best, bestD) =
          closestScan pos ws (i + 1) (best, bestD) := by
        simp only [closestScan]
        rw [if_neg hc]
      obtain ⟨ih1, ih2, ih3⟩ := ih (i + 1) best bestD hws2 hinv
      rw [hstep]
      refine ⟨ih1, ?_, ih3⟩
      intro w2 hw2
      rcases List.mem_cons.mp hw2 with h | h
      · obtain ⟨b, hb, hble⟩ := ih3 b0 hb0
        exact ⟨b, hb, by rw [h]; exact le_trans hble hge⟩
      · exact ih2 w2 h

/-- For a nonempty waypoint list, `getClosestWaypointIndex` is in range and
realizes the minimum distance over all waypoints. -/
theorem getClosestWaypointIndex_spec (t : Track) (pos : Vec)
    (hw : t.waypoints ≠ []) :
    getClosestWaypointIndex t pos < t.waypoints.length ∧
      ∀ j < t.waypoints.length,
        Vec.dist pos (t.wp (getClosestWaypointIndex t pos)) ≤
          Vec.dist pos (t.wp j) := by
  obtain ⟨s1, s2, _⟩ := closestScan_spec pos t.waypoints t.waypoints 0 0 none
    (by rw [List.drop_zero]) (by intro b hb; cases hb)
  obtain ⟨w0, ws0, hcons⟩ := List.exists_cons_of_ne_nil hw
  have hmem : w0 ∈ t.waypoints := by rw [hcons]; exact List.mem_cons_self w0 ws0
  obtain ⟨b, hb, _⟩ := s2 w0 hmem
  obtain ⟨hlt, hdist⟩ := s1 b hb
  refine ⟨hlt, fun j hj => ?_⟩
  have hjmem : t.waypoints.getD j 0 ∈ t.waypoints := by
    rw [List.getD_eq_getElem t.waypoints 0 hj]
    exact List.getElem_mem hj
  obtain ⟨b2, hb2, hble⟩ := s2 (t.waypoints.getD j 0) hjmem
  rw [hb2] at hb
  injection hb with hb
  unfold wp getClosestWaypointIndex
  rw [hdist, ← hb]
  exact hble

end Track

/-- `createCanvas(1000, 700)`: the p5 global `width`. -/
def canvasWidth : ℝ := 1000

/-- `createCanvas(1000, 700)`: the p5 global `height`. -/
def canvasHeight : ℝ := 700

/-- `const LAPS_TO_WIN = 2`. -/
def LAPS_TO_WIN : ℕ := 2

/-- `const MAX_LEVEL = 10`. -/
def MAX_LEVEL : ℤ := 10

namespace Vehicule

/-- `Vehicule.edges()`: clamp the position to the canvas minus the collision
margin and flip (damped) the corresponding velocity component. -/
def edges (margin : ℝ) (position velocity : Vec) : Vec × Vec :=
  let xc :=
    if position.x < margin then (margin, velocity.x * (-0.5))
    else if canvasWidth - margin < position.x then
      (canvasWidth - margin, velocity.x * (-0.5))
    else (position.x, velocity.x)
  let yc :=
    if position.y < margin then (margin, velocity.y * (-0.5))
    else if canvasHeight - margin < position.y then
      (canvasHeight - margin, velocity.y * (-0.5))
    else (position.y, velocity.y)
  (⟨xc.1, yc.1⟩, ⟨xc.2, yc.2⟩)

/-- `Vehicule.seek(target)` as a function of the physical fields it reads. -/
def seek (maxspeed maxforce : ℝ) (position velocity target : Vec) : Vec :=
  let desired := Vec.setMag maxspeed (target - position)
  Vec.limit maxforce (desired - velocity)

end Vehicule

/-- The base `Vehicule` physics state (constructor fields of Vehicule.js
minus rendering). -/
structure VState where
  position : Vec
  velocity : Vec
  acceleration : Vec
  r : ℝ
  maxforce : ℝ
  maxspeed : ℝ

/-- `Vehicule.update()`: Euler integration with speed clamp and
acceleration reset. -/
def Vehicule.update (s : VState) : VState :=
  let v2 := Vec.limit s.maxspeed (s.velocity + s.acceleration)
  { s with velocity := v2, position := s.position + v2, acceleration := 0 }

/-- The key state read by `PlayerCar.handleInput` (arrow keys / WASD plus
the SHIFT/N nitro request). -/
structure KeyInput where
  up : Bool
  down : Bool
  left : Bool
  right : Bool
  nitro : Bool

/-- The mutable `PlayerCar` state (visual particle state omitted).
Constructor values: angle 0 (or the first track segment heading), laps 0,
fuel 100, timers 0, `drift_factor` 0.90. -/
structure PState where
  position : Vec
  velocity : Vec
  angle : ℝ
  laps : ℕ
  checkpointsReached : ℕ
  lastCheckpoint : ℕ
  finished : Bool
  autoMode : Bool
  nitroFuel : ℝ
  nitroActive : Bool
  driftFactor : ℝ
  onOil : Bool
  oilTimer : ℕ
  slowdownTimer : ℕ

namespace PlayerCar

def maxspeed : ℝ := 6
def nitroMaxspeed : ℝ := 10
def maxforce : ℝ := 0.35
def acceleration_power : ℝ := 0.18
def brake_power : ℝ := 0.12
def turn_speed : ℝ := 0.065
def friction : ℝ := 0.97
def waypointReachDistance : ℝ := 65
def nitroMaxFuel : ℝ := 100
def nitroDrainRate : ℝ := 1.5
def nitroRechargeRate : ℝ := 0.3
def nitroBoostPower : ℝ := 0.35
def r : ℝ := 12

/-- `PlayerCar.handleInput()`: thrust/brake along the current heading,
speed-scaled steering, and the nitro request gated by `nitroFuel > 0`. -/
def handleInput (inp : KeyInput) (s : PState) : PState :=
  if s.finished then s
  else
    let v1 := if inp.up then s.velocity + acceleration_power • Vec.fromAngle s.angle
              else s.velocity
    let v2 := if inp.down then v1 + (-brake_power) • Vec.fromAngle s.angle else v1
    let speed := v2.mag
    let a2 :=
      if 0.5 < speed then
        let a0 := if inp.left then s.angle - turn_speed * min (speed / 3) 1
                  else s.angle
        if inp.right then a0 + turn_speed * min (speed / 3) 1 else a0
      else s.angle
    { s with velocity := v2, angle := a2,
             nitroActive := inp.nitro && decide (0 < s.nitroFuel) }

/-- `PlayerCar.handleAutoPilot()`: arrival-style seek toward the next
checkpoint, obstacle avoidance (weight 2.0), boundary force (weight 1.5) and
automatic nitro engagement.  The `getD 0` on the boundary force is
unreachable: the guard at the top already returned on an empty waypoint
list. -/
def handleAutoPilot (t : Track) (s : PState) : PState :=
  if t.waypoints = [] then s
  else
    let expectedNext := (s.lastCheckpoint + 1) % t.waypoints.length
    let desired := t.wp expectedNext - s.position
    let distance := desired.mag
    let speed := if distance < 100 then p5map distance 0 100 2 maxspeed else maxspeed
    let steer := Vec.limit maxforce (speed • desired.normalize - s.velocity)
    let v1 := s.velocity + steer
    let a1 := if 0.5 < v1.mag then v1.heading else s.angle
    let v2 := v1 + (2.0 : ℝ) • t.getObstacleAvoidanceForce s.position v1 60
    let v3 := v2 + (1.5 : ℝ) • (t.getTrackBoundaryForce s.position v2).getD 0
    { s with velocity := v3, angle := a1,
             nitroActive := decide (4 < v3.mag) && decide (30 < s.nitroFuel) }

/-- `PlayerCar.updateNitro()` (exhaust particles omitted: render-only). -/
def updateNitro (s : PState) : PState :=
  if s.nitroActive && decide (0 < s.nitroFuel) then
    { s with velocity := s.velocity + nitroBoostPower • Vec.fromAngle s.angle,
             nitroFuel := max 0 (s.nitroFuel - nitroDrainRate) }
  else
    { s with nitroFuel := min nitroMaxFuel (s.nitroFuel + nitroRechargeRate) }

/-- `PlayerCar.handleBoundary()`.  The `none` case is where the source
faults on an empty waypoint list (see C7); the update theorems only consider
generated (nonempty) tracks. -/
def handleBoundary (t : Track) (s : PState) : PState :=
  match t.getTrackBoundaryForce s.position s.velocity with
  | none => s
  | some boundaryForce =>
    if 0 < boundaryForce.mag then
      { s with velocity := (0.85 : ℝ) • s.velocity + (2 : ℝ) • boundaryForce }
    else s

/-- The collision `switch` at the top of `PlayerCar.handleObstacles()`. -/
def obstacleHit (t : Track) (s : PState) : PState :=
  match t.checkObstacleCollision s.position with
  | some obs =>
    match obs.type with
    | ObstacleType.cone =>
      { s with velocity := (0.7 : ℝ) • s.velocity, slowdownTimer := 30 }
    | ObstacleType.barrier =>
      { s with velocity :=
          (0.5 : ℝ) • (s.velocity + (3 : ℝ) • (s.position - obs.position).normalize) }
    | ObstacleType.oil => { s with onOil := true, oilTimer := 60 }
  | none => s

/-- The oil-slide block of `PlayerCar.handleObstacles()`: tick the timer,
raise the drift factor, and reset when the timer runs out. -/
def oilEffect (s : PState) : PState :=
  if 0 < s.oilTimer then
    let sa := { s with oilTimer := s.oilTimer - 1, driftFactor := 0.98 }
    if sa.oilTimer = 0 then { sa with driftFactor := 0.90, onOil := false }
    else sa
  else s

/-- The cone-slowdown block of `PlayerCar.handleObstacles()`. -/
def coneSlowdown (s : PState) : PState :=
  if 0 < s.slowdownTimer then
    { s with slowdownTimer := s.slowdownTimer - 1,
             velocity := (0.98 : ℝ) • s.velocity }
  else s

/-- `PlayerCar.handleObstacles()`: collision response followed by the oil
and cone timers. -/
def handleObstacles (t : Track) (s : PState) : PState :=
  coneSlowdown (oilEffect (obstacleHit t s))

/-- `PlayerCar.checkWaypoints()`: advance `lastCheckpoint` to the expected
next waypoint when within reach, and count a lap on reaching waypoint 0 with
at least 80% of the checkpoints accumulated. -/
def checkWaypoints (t : Track) (s : PState) : PState :=
  let expectedNext := (s.lastCheckpoint + 1) % t.waypoints.length
  if Vec.dist s.position (t.wp expectedNext) < waypointReachDistance then
    let s1 := { s with lastCheckpoint := expectedNext,
                       checkpointsReached := s.checkpointsReached + 1 }
    if expectedNext = 0 ∧
        (s1.checkpointsReached : ℝ) ≥ (t.waypoints.length : ℝ) * 0.8 then
      { s1 with laps := s1.laps + 1, checkpointsReached := 0 }
    else s1
  else s

/-- The first half of `PlayerCar.update()`: input (or autopilot), nitro,
friction, drift correction, the speed clamp, and position integration. -/
def integrate (t : Track) (inp : KeyInput) (s : PState) : PState :=
  let s1 := if s.autoMode then handleAutoPilot t s else handleInput inp s
  let s2 := updateNitro s1
  let v3 := friction • s2.velocity
  let facingDir := Vec.fromAngle s2.angle
  let forwardVel := Vec.dot v3 facingDir • facingDir
  let v4 := Vec.lerp v3 forwardVel (1 - s2.driftFactor)
  let currentMaxSpeed := if s2.nitroActive then nitroMaxspeed else maxspeed
  let v5 := Vec.limit currentMaxSpeed v4
  { s2 with velocity := v5, position := s2.position + v5 }

/-- `PlayerCar.update()`: integration followed by boundary handling,
obstacle handling, waypoint bookkeeping and the screen-edge bounce. -/
def update (t : Track) (inp : KeyInput) (s : PState) : PState :=
  if s.finished then s
  else
    let s6 := checkWaypoints t (handleObstacles t (handleBoundary t (integrate t inp s)))
    let pv := Vehicule.edges r s6.position s6.velocity
    { s6 with position := pv.1, velocity := pv.2 }

end PlayerCar

/-- The mutable `FollowerCar` state (car color / number display omitted:
render-only).  `maxspeed`/`maxforce` are per-car fields because the sketch
randomizes them at spawn. -/
structure FState where
  position : Vec
  velocity : Vec
  acceleration : Vec
  maxspeed : ℝ
  maxforce : ℝ
  currentWaypointIndex : ℕ
  laps : ℕ
  checkpointsReached : ℕ
  lastCheckpoint : ℕ
  finished : Bool

namespace FollowerCar

def waypointReachDistance : ℝ := 55
def desiredSeparation : ℝ := 50
def pathWeight : ℝ := 1.5
def separationWeight : ℝ := 2.5
def boundaryWeight : ℝ := 2.0
def r : ℝ := 10

/-- `FollowerCar.followPath()`: waypoint advancement with the 80% lap rule,
returning the updated state together with the seek force toward the (new)
current waypoint. -/
def followPath (t : Track) (s : FState) : FState × Vec :=
  let target := t.wp s.currentWaypointIndex
  let s1 :=
    if Vec.dist s.position target < waypointReachDistance then
      let newIdx := (s.currentWaypointIndex + 1) % t.waypoints.length
      let s0 := { s with currentWaypointIndex := newIdx, lastCheckpoint := newIdx,
                         checkpointsReached := s.checkpointsReached + 1 }
      if newIdx = 0 ∧
          (s0.checkpointsReached : ℝ) ≥ (t.waypoints.length : ℝ) * 0.8 then
        { s0 with laps := s0.laps + 1, checkpointsReached := 0 }
      else s0
    else s
  (s1, Vehicule.seek s1.maxspeed s1.maxforce s1.position s1.velocity
    (t.wp s1.currentWaypointIndex))

/-- `FollowerCar.avoidBoundary()`.  As in `handleBoundary`, the `getD 0`
covers the empty-waypoint fault of the source (C7), unreachable on generated
tracks. -/
def avoidBoundary (t : Track) (s : FState) : Vec :=
  (t.getTrackBoundaryForce s.position s.velocity).getD 0

/-- `FollowerCar.avoidCar(car)`: inverse-distance repulsion from a single
target position. -/
def avoidCar (s : FState) (carPos : Vec) : Vec :=
  let distance := Vec.dist s.position carPos
  if 0 < distance ∧ distance < desiredSeparation then
    (1 / distance) • (s.position - carPos).normalize
  else 0

/-- `FollowerCar.separate(vehicles)`.  The source skips `other === this` by
object identity; a vehicle at distance 0 is skipped by the `distance > 0`
guard anyway, so iterating over every position (the car's own included) is
behaviorally identical. -/
def separate (s : FState) (vehicles : List Vec) : Vec :=
  let acc := vehicles.foldl
    (fun (acc : Vec × ℕ) other =>
      let distance := Vec.dist s.position other
      if 0 < distance ∧ distance < desiredSeparation then
        (acc.1 + (1 / distance) • (s.position - other).normalize, acc.2 + 1)
      else acc) (0, 0)
  let steer := if 0 < acc.2 then (1 / (acc.2 : ℝ)) • acc.1 else acc.1
  if 0 < steer.mag then
    Vec.limit (s.maxforce * 2) (Vec.setMag s.maxspeed steer - s.velocity)
  else steer

/-- `FollowerCar.applyBehaviors(vehicles, targetCar)`: path following
(weight 1.5), separation (2.5), player avoidance (2.0) and boundary force
(2.0), all accumulated into the acceleration. -/
def applyBehaviors (t : Track) (vehicles : List Vec) (targetCarPos : Vec)
    (s : FState) : FState :=
  if s.finished then s
  else
    let fp := followPath t s
    let s1 := fp.1
    let pathForce := pathWeight • fp.2
    let separationForce := separationWeight • separate s1 vehicles
    let playerAvoid := (2.0 : ℝ) • avoidCar s1 targetCarPos
    let boundaryForce := boundaryWeight • avoidBoundary t s1
    { s1 with acceleration :=
        s1.acceleration + pathForce + separationForce + playerAvoid + boundaryForce }

/-- `FollowerCar.update()`: the inherited `Vehicule.update()` (Euler step
with speed clamp and acceleration reset) followed by `edges()`. -/
def update (s : FState) : FState :=
  if s.finished then s
  else
    let v2 := Vec.limit s.maxspeed (s.velocity + s.acceleration)
    let p2 := s.position + v2
    let pv := Vehicule.edges r p2 v2
    { s with velocity := pv.2, position := pv.1, acceleration := 0 }

/-- `FollowerCar.getRaceProgress()` and the per-racer progress of
`updateRacePositions`: `laps * waypoints.length + lastCheckpoint`. -/
def raceProgress (n laps lastCheckpoint : ℕ) : ℕ := laps * n + lastCheckpoint

end FollowerCar

/-- The `gameState` values of the sketch state machine. -/
inductive GameMode
  | menu
  | levelSelect
  | playing
  | levelComplete
  | raceLost
  | gameOver
deriving DecidableEq

/-- The global `winner` variable. -/
inductive Winner
  | player
  | ai
deriving DecidableEq

/-- An entry of the global `racePositions` array built by
`updateRacePositions`. -/
structure RaceEntry where
  isPlayer : Bool
  index : ℕ
  progress : ℕ
  laps : ℕ

/-- The global sketch state driving one race frame. -/
structure Game where
  mode : GameMode
  raceFinished : Bool
  winner : Option Winner
  playerPosition : ℕ
  racePositions : List RaceEntry
  playerCar : PState
  aiCars : List FState
  track : Track
  currentLevel : ℤ
  unlockedLevel : ℤ

/-- `LevelSelect.unlockLevel(level)`: the persisted unlock is an append-only
ratchet. -/
def LevelSelect.unlockLevel (unlocked level : ℤ) : ℤ :=
  if unlocked < level then level else unlocked

/-- Insertion step of the descending stable sort used to model
`racers.sort((a, b) => b.progress - a.progress)`. -/
def insertByProgress (x : RaceEntry) : List RaceEntry → List RaceEntry
  | [] => [x]
  | y :: ys =>
    if y.progress < x.progress then x :: y :: ys else y :: insertByProgress x ys

/-- Stable descending sort by progress (ties keep input order, as the
stable JS `Array.sort` does). -/
def sortByProgress : List RaceEntry → List RaceEntry
  | [] => []
  | x :: xs => insertByProgress x (sortByProgress xs)

/-- `updateRacePositions()`: compute every racer's progress, sort
descending, and locate the player. -/
def updateRacePositions (g : Game) : Game :=
  let n := g.track.waypoints.length
  let racers : List RaceEntry :=
    ⟨true, 0, FollowerCar.raceProgress n g.playerCar.laps g.playerCar.lastCheckpoint,
      g.playerCar.laps⟩ ::
    g.aiCars.enum.map (fun p =>
      ⟨false, p.1, FollowerCar.raceProgress n p.2.laps p.2.lastCheckpoint, p.2.laps⟩)
  let sorted := sortByProgress racers
  { g with racePositions := sorted,
           playerPosition := sorted.findIdx (·.isPlayer) + 1 }

/-- The AI loop of `updateGame()`: `ai.applyBehaviors(aiCars, playerCar)`
then `ai.update()`, sequentially and in place, so later cars see the already
updated positions of earlier ones — exactly the reference mutation order. -/
def updateAIs (t : Track) (player : PState) (ais : List FState) : List FState :=
  (List.range ais.length).foldl
    (fun acc i =>
      match acc[i]? with
      | none => acc
      | some ai =>
        acc.set i (FollowerCar.update
          (FollowerCar.applyBehaviors t (acc.map (·.position)) player.position ai)))
    ais

/-- `checkRaceFinished()`: the player is checked first; an AI winner sets
`raceLost`; the early `return` after the player branch is modelled by the
`else`. -/
def checkRaceFinished (g : Game) : Game :=
  if LAPS_TO_WIN ≤ g.playerCar.laps ∧ g.raceFinished = false then
    { g with raceFinished := true,
             winner := some Winner.player,
             playerCar := { g.playerCar with finished := true },
             unlockedLevel := LevelSelect.unlockLevel g.unlockedLevel (g.currentLevel + 1),
             mode := if MAX_LEVEL ≤ g.currentLevel then GameMode.gameOver
                     else GameMode.levelComplete }
  else if g.raceFinished = false ∧
      g.aiCars.any (fun ai => decide (LAPS_TO_WIN ≤ ai.laps)) then
    { g with raceFinished := true, winner := some Winner.ai,
             mode := GameMode.raceLost }
  else g

/-- `updateGame()`: standings, player update, AI updates, finish check
(HUD and debug drawing omitted). -/
def updateGame (inp : KeyInput) (g : Game) : Game :=
  let g0 := updateRacePositions g
  let g1 := { g0 with playerCar := PlayerCar.update g0.track inp g0.playerCar }
  let g2 := { g1 with aiCars := updateAIs g1.track g1.playerCar g1.aiCars }
  checkRaceFinished g2

/-- One frame of `draw()`: the simulation advances only in the `playing`
state; every other state only renders. -/
def frameStep (inp : KeyInput) (g : Game) : Game :=
  match g.mode with
  | GameMode.playing => updateGame inp g
  | _ => g

/-- A whole sequence of frames. -/
def frameRun (inps : List KeyInput) (g : Game) : Game :=
  inps.foldl (fun g2 inp => frameStep inp g2) g

theorem Vec.dist_self (a : Vec) : Vec.dist a a = 0 := by
  have h : a - a = ⟨0, 0⟩ := by rw [Vec.sub_def]; simp
  unfold Vec.dist
  rw [h]
  simpa using Vec.mag_axis_x 0

/-- A `PState` with the given position, laps, checkpoint accumulator and
last checkpoint; every other field at its constructor value. -/
def playerAt (pos : Vec) (laps cr last : ℕ) : PState :=
  { position := pos, velocity := 0, angle := 0, laps := laps,
    checkpointsReached := cr, lastCheckpoint := last, finished := false,
    autoMode := false, nitroFuel := 100, nitroActive := false,
    driftFactor := 0.90, onOil := false, oilTimer := 0, slowdownTimer := 0 }

/-- An `FState` with the given position, laps, checkpoint accumulator,
current waypoint and last checkpoint; other fields at spawn values. -/
def followerAt (pos : Vec) (laps cr cwi last : ℕ) : FState :=
  { position := pos, velocity := 0, acceleration := 0, maxspeed := 4,
    maxforce := 0.24, currentWaypointIndex := cwi, laps := laps,
    checkpointsReached := cr, lastCheckpoint := last, finished := false }

/-- A level-1-shaped track with the standard 80 waypoints (all at the
origin: `checkWaypoints`/`followPath` only read distances to them). -/
def track80 : Track :=
  { level := 1, waypoints := List.replicate 80 0, trackWidth := 154,
    obstacles := [] }

/-- A degenerate, not-yet-generated track: no waypoints, no obstacles. -/
def emptyTrack : Track :=
  { level := 1, waypoints := [], trackWidth := 154, obstacles := [] }

/-- C9: for every level in 1..10 the track width is
`max(100, 160 − 6·level)`; the width is monotonically non-increasing in the
level; at level 1 it equals 154, not 100. -/
theorem C9_track_width :
    (∀ level : ℤ, 1 ≤ level → level ≤ 10 →
      Track.getTrackWidth level = max 100 (160 - (level : ℝ) * 6)) ∧
    (∀ l1 l2 : ℤ, l1 ≤ l2 →
      Track.getTrackWidth l2 ≤ Track.getTrackWidth l1) ∧
    Track.getTrackWidth 1 = 154 ∧ Track.getTrackWidth 1 ≠ 100 := by
  refine ⟨fun level _ _ => rfl, ?_, ?_, ?_⟩
  · intro l1 l2 h
    unfold Track.getTrackWidth
    apply max_le_max (le_refl (100 : ℝ))
    have hc : (l1 : ℝ) ≤ (l2 : ℝ) := by exact_mod_cast h
    linarith
  · unfold Track.getTrackWidth; norm_num
  · unfold Track.getTrackWidth; norm_num

/-- Witness for C9 at concrete levels 1 and (3, 7). -/
theorem C9_witness :
    ((1 : ℤ) ≤ 1 ∧ (1 : ℤ) ≤ 10 ∧
      Track.getTrackWidth 1 = max 100 (160 - ((1 : ℤ) : ℝ) * 6)) ∧
    ((3 : ℤ) ≤ 7 ∧ Track.getTrackWidth 7 ≤ Track.getTrackWidth 3) :=
  ⟨⟨by norm_num, by norm_num, C9_track_width.1 1 (by norm_num) (by norm_num)⟩,
   ⟨by norm_num, C9_track_width.2.1 3 7 (by norm_num)⟩⟩

/-- C7: on a track with an empty waypoint list, `getTrackBoundaryForce`
does not return a neutral zero force: the source reads `waypoints[0]`
(undefined) and faults inside `p5.Vector.dist`, modelled by `none`.  The
obstacle-set queries and the nearest-waypoint scan do degrade neutrally on
empty inputs. -/
theorem C7_empty_track_fault :
    (∀ pos vel : Vec, Track.getTrackBoundaryForce emptyTrack pos vel = none) ∧
    (∀ pos : Vec, Track.getClosestWaypointIndex emptyTrack pos = 0) ∧
    (∀ pos : Vec, Track.checkObstacleCollision emptyTrack pos = none) ∧
    (∀ (pos vel : Vec) (lookAhead : ℝ),
      Track.getObstacleAvoidanceForce emptyTrack pos vel lookAhead = 0) := by
  refine ⟨fun pos vel => ?_, fun pos => rfl, fun pos => rfl,
    fun pos vel lookAhead => rfl⟩
  unfold Track.getTrackBoundaryForce
  have h : emptyTrack.waypoints[Track.getClosestWaypointIndex emptyTrack pos]? =
      none := rfl
  rw [h]

/-- C2: for the player (`checkWaypoints`) and for an opponent
(`followPath`), the lap counter increments exactly when checkpoint 0 is
reached AND the checkpoints accumulated since the last lap reset (the
arrival included) are at least 0.8 × waypointCount, and the accumulator then
resets to 0; with 80 waypoints, reaching checkpoint 0 as the 10th checkpoint
leaves `laps` unchanged while reaching it as the 70th increments `laps`. -/
theorem C2_lap_rule :
    (∀ (t : Track) (s : PState),
      (PlayerCar.checkWaypoints t s).laps =
        (if Vec.dist s.position (t.wp ((s.lastCheckpoint + 1) % t.waypoints.length)) <
              PlayerCar.waypointReachDistance ∧
            (s.lastCheckpoint + 1) % t.waypoints.length = 0 ∧
            ((s.checkpointsReached + 1 : ℕ) : ℝ) ≥ (t.waypoints.length : ℝ) * 0.8
         then s.laps + 1 else s.laps) ∧
      (PlayerCar.checkWaypoints t s).checkpointsReached =
        (if Vec.dist s.position (t.wp ((s.lastCheckpoint + 1) % t.waypoints.length)) <
              PlayerCar.waypointReachDistance
         then
           if (s.lastCheckpoint + 1) % t.waypoints.length = 0 ∧
              ((s.checkpointsReached + 1 : ℕ) : ℝ) ≥ (t.waypoints.length : ℝ) * 0.8
           then 0 else s.checkpointsReached + 1
         else s.checkpointsReached)) ∧
    (∀ (t : Track) (s : FState),
      (FollowerCar.followPath t s).1.laps =
        (if Vec.dist s.position (t.wp s.currentWaypointIndex) <
              FollowerCar.waypointReachDistance ∧
            (s.currentWaypointIndex + 1) % t.waypoints.length = 0 ∧
            ((s.checkpointsReached + 1 : ℕ) : ℝ) ≥ (t.waypoints.length : ℝ) * 0.8
         then s.laps + 1 else s.laps) ∧
      (FollowerCar.followPath t s).1.checkpointsReached =
        (if Vec.dist s.position (t.wp s.currentWaypointIndex) <
              FollowerCar.waypointReachDistance
         then
           if (s.currentWaypointIndex + 1) % t.waypoints.length = 0 ∧
              ((s.checkpointsReached + 1 : ℕ) : ℝ) ≥ (t.waypoints.length : ℝ) * 0.8
           then 0 else s.checkpointsReached + 1
         else s.checkpointsReached)) ∧
    ((PlayerCar.checkWaypoints track80 (playerAt 0 0 9 79)).lastCheckpoint = 0 ∧
      (PlayerCar.checkWaypoints track80 (playerAt 0 0 9 79)).laps = 0 ∧
      (PlayerCar.checkWaypoints track80 (playerAt 0 0 9 79)).checkpointsReached = 10) ∧
    ((PlayerCar.checkWaypoints track80 (playerAt 0 0 69 79)).lastCheckpoint = 0 ∧
      (PlayerCar.checkWaypoints track80 (playerAt 0 0 69 79)).laps = 1 ∧
      (PlayerCar.checkWaypoints track80 (playerAt 0 0 69 79)).checkpointsReached = 0) ∧
    ((FollowerCar.followPath track80 (followerAt 0 0 9 79 79)).1.laps = 0 ∧
      (FollowerCar.followPath track80 (followerAt 0 0 69 79 79)).1.laps = 1) := by
  have hwp : ∀ i : ℕ, i < 80 → track80.wp i = 0 := by
    intro i h
    show (List.replicate 80 (0 : Vec)).getD i 0 = 0
    rw [List.getD_eq_getElem?_getD, List.getElem?_replicate, if_pos h]
    rfl
  have hlen80 : track80.waypoints.length = 80 := by
    simp [track80]
  refine ⟨?_, ?_, ?_, ?_, ?_⟩
  · intro t s
    dsimp only [PlayerCar.checkWaypoints]
    set e := (s.lastCheckpoint + 1) % t.waypoints.length with hee
    set d := Vec.dist s.position (t.wp e) with hdd
    by_cases hd : d < PlayerCar.waypointReachDistance
    all_goals by_cases he : e = 0
    all_goals by_cases hc :
      (t.waypoints.length : ℝ) * 0.8 ≤ (s.checkpointsReached : ℝ) + 1
    all_goals simp [hd, he, hc]
  · intro t s
    dsimp only [FollowerCar.followPath]
    set e := (s.currentWaypointIndex + 1) % t.waypoints.length with hee
    set d := Vec.dist s.position (t.wp s.currentWaypointIndex) with hdd
    by_cases hd : d < FollowerCar.waypointReachDistance
    all_goals by_cases he : e = 0
    all_goals by_cases hc :
      (t.waypoints.length : ℝ) * 0.8 ≤ (s.checkpointsReached : ℝ) + 1
    all_goals simp [hd, he, hc]
  · dsimp only [PlayerCar.checkWaypoints, playerAt]
    rw [hlen80, show ((79 + 1) % 80 : ℕ) = 0 from by norm_num,
      hwp 0 (by norm_num), Vec.dist_self]
    rw [if_pos (show (0 : ℝ) < PlayerCar.waypointReachDistance from by
      unfold PlayerCar.waypointReachDistance; norm_num)]
    rw [if_neg (show ¬((0 : ℕ) = 0 ∧ ((9 + 1 : ℕ) : ℝ) ≥ ((80 : ℕ) : ℝ) * 0.8)
      from by push_cast; norm_num)]
    exact ⟨rfl, rfl, rfl⟩
  · dsimp only [PlayerCar.checkWaypoints, playerAt]
    rw [hlen80, show ((79 + 1) % 80 : ℕ) = 0 from by norm_num,
      hwp 0 (by norm_num), Vec.dist_self]
    rw [if_pos (show (0 : ℝ) < PlayerCar.waypointReachDistance from by
      unfold PlayerCar.waypointReachDistance; norm_num)]
    rw [if_pos (show (0 : ℕ) = 0 ∧ ((69 + 1 : ℕ) : ℝ) ≥ ((80 : ℕ) : ℝ) * 0.8
      from ⟨rfl, by push_cast; norm_num⟩)]
    exact ⟨rfl, rfl, rfl⟩
  · constructor
    · dsimp only [FollowerCar.followPath, followerAt]
      rw [hlen80, hwp 79 (by norm_num), Vec.dist_self]
      rw [if_pos (show (0 : ℝ) < FollowerCar.waypointReachDistance from by
        unfold FollowerCar.waypointReachDistance; norm_num)]
      rw [if_neg (show ¬((79 + 1) % 80 = 0 ∧
          ((9 + 1 : ℕ) : ℝ) ≥ ((80 : ℕ) : ℝ) * 0.8) from by push_cast; norm_num)]
    · dsimp only [FollowerCar.followPath, followerAt]
      rw [hlen80, hwp 79 (by norm_num), Vec.dist_self]
      rw [if_pos (show (0 : ℝ) < FollowerCar.waypointReachDistance from by
        unfold FollowerCar.waypointReachDistance; norm_num)]
      rw [if_pos (show (79 + 1) % 80 = 0 ∧
          ((69 + 1 : ℕ) : ℝ) ≥ ((80 : ℕ) : ℝ) * 0.8 from
        ⟨by norm_num, by push_cast; norm_num⟩)]

/-- C10: after every `followPath` call the opponent's `lastCheckpoint`
equals `currentWaypointIndex` (the waypoint it is heading toward, one past
the waypoint just reached), whereas the player's `checkWaypoints` sets
`lastCheckpoint` to the waypoint actually reached; so the race progress
`laps * N + lastCheckpoint` counts the upcoming waypoint for an opponent
and the last reached one for the player. -/
theorem C10_checkpoint_semantics :
    (∀ (t : Track) (s : FState),
      s.lastCheckpoint = s.currentWaypointIndex →
      (FollowerCar.followPath t s).1.lastCheckpoint =
        (FollowerCar.followPath t s).1.currentWaypointIndex) ∧
    (∀ (t : Track) (s : FState),
      Vec.dist s.position (t.wp s.currentWaypointIndex) <
          FollowerCar.waypointReachDistance →
      (FollowerCar.followPath t s).1.lastCheckpoint =
        (s.currentWaypointIndex + 1) % t.waypoints.length) ∧
    (∀ (t : Track) (s : PState),
      Vec.dist s.position (t.wp ((s.lastCheckpoint + 1) % t.waypoints.length)) <
          PlayerCar.waypointReachDistance →
      (PlayerCar.checkWaypoints t s).lastCheckpoint =
        (s.lastCheckpoint + 1) % t.waypoints.length) := by
  refine ⟨?_, ?_, ?_⟩
  · intro t s hinv
    dsimp only [FollowerCar.followPath]
    set e := (s.currentWaypointIndex + 1) % t.waypoints.length with hee
    by_cases hd : Vec.dist s.position (t.wp s.currentWaypointIndex) <
        FollowerCar.waypointReachDistance
    all_goals by_cases he : e = 0
    all_goals by_cases hc :
      (t.waypoints.length : ℝ) * 0.8 ≤ (s.checkpointsReached : ℝ) + 1
    all_goals simp [hd, he, hc, hinv]
  · intro t s hd
    dsimp only [FollowerCar.followPath]
    set e := (s.currentWaypointIndex + 1) % t.waypoints.length with hee
    by_cases he : e = 0
    all_goals by_cases hc :
      (t.waypoints.length : ℝ) * 0.8 ≤ (s.checkpointsReached : ℝ) + 1
    all_goals simp [hd, he, hc]
  · intro t s hd
    dsimp only [PlayerCar.checkWaypoints]
    set e := (s.lastCheckpoint + 1) % t.waypoints.length with hee
    by_cases he : e = 0
    all_goals by_cases hc :
      (t.waypoints.length : ℝ) * 0.8 ≤ (s.checkpointsReached : ℝ) + 1
    all_goals try rw [he] at hd
    all_goals simp [hd, he, hc]

/-- Witness for C10 on the 80-waypoint track with a car right on its target
waypoint. -/
theorem C10_witness :
    ((followerAt 0 0 9 5 5).lastCheckpoint =
        (followerAt 0 0 9 5 5).currentWaypointIndex ∧
      (FollowerCar.followPath track80 (followerAt 0 0 9 5 5)).1.lastCheckpoint =
        (FollowerCar.followPath track80 (followerAt 0 0 9 5 5)).1.currentWaypointIndex) ∧
    (Vec.dist (followerAt 0 0 9 5 5).position (track80.wp 5) <
        FollowerCar.waypointReachDistance ∧
      (FollowerCar.followPath track80 (followerAt 0 0 9 5 5)).1.lastCheckpoint =
        (5 + 1) % track80.waypoints.length) ∧
    (Vec.dist (playerAt 0 0 9 5).position
        (track80.wp (((playerAt 0 0 9 5).lastCheckpoint + 1) %
          track80.waypoints.length)) < PlayerCar.waypointReachDistance ∧
      (PlayerCar.checkWaypoints track80 (playerAt 0 0 9 5)).lastCheckpoint =
        ((playerAt 0 0 9 5).lastCheckpoint + 1) % track80.waypoints.length) := by
  have hwp : ∀ i : ℕ, i < 80 → track80.wp i = 0 := by
    intro i h
    show (List.replicate 80 (0 : Vec)).getD i 0 = 0
    rw [List.getD_eq_getElem?_getD, List.getElem?_replicate, if_pos h]
    rfl
  have hlen80 : track80.waypoints.length = 80 := by simp [track80]
  have hdF : Vec.dist (followerAt 0 0 9 5 5).position (track80.wp 5) <
      FollowerCar.waypointReachDistance := by
    show Vec.dist 0 (track80.wp 5) < FollowerCar.waypointReachDistance
    rw [hwp 5 (by norm_num), Vec.dist_self]
    unfold FollowerCar.waypointReachDistance
    norm_num
  have hdP : Vec.dist (playerAt 0 0 9 5).position
      (track80.wp (((playerAt 0 0 9 5).lastCheckpoint + 1) %
        track80.waypoints.length)) < PlayerCar.waypointReachDistance := by
    show Vec.dist 0 (track80.wp ((5 + 1) % track80.waypoints.length)) <
      PlayerCar.waypointReachDistance
    rw [hlen80, show ((5 + 1) % 80 : ℕ) = 6 from by norm_num,
      hwp 6 (by norm_num), Vec.dist_self]
    unfold PlayerCar.waypointReachDistance
    norm_num
  exact ⟨⟨rfl, C10_checkpoint_semantics.1 track80 (followerAt 0 0 9 5 5) rfl⟩,
    ⟨hdF, C10_checkpoint_semantics.2.1 track80 (followerAt 0 0 9 5 5) hdF⟩,
    ⟨hdP, C10_checkpoint_semantics.2.2 track80 (playerAt 0 0 9 5) hdP⟩⟩

/-- The player checkpoint bookkeeping invariant: the checkpoint index is in
range and the accumulator dominates it.  It holds at race start
(`lastCheckpoint = 0`, `checkpointsReached = 0`) and is preserved by
`checkWaypoints`. -/
def playerProgressInv (t : Track) (s : PState) : Prop :=
  s.lastCheckpoint < t.waypoints.length ∧
    s.lastCheckpoint ≤ s.checkpointsReached

/-- The opponent checkpoint bookkeeping invariant: the current waypoint
index is in range, `lastCheckpoint` mirrors it, and the accumulator
dominates it. -/
def followerProgressInv (t : Track) (s : FState) : Prop :=
  s.currentWaypointIndex < t.waypoints.length ∧
    s.lastCheckpoint = s.currentWaypointIndex ∧
    s.currentWaypointIndex ≤ s.checkpointsReached

/-- C4: under the start-established bookkeeping invariant, the race progress
`laps * N + lastCheckpoint` of either competitor never decreases in a step
with unchanged lap count, and the checkpoint index drops (wraps to 0) only
together with a lap increment; the invariant is preserved and holds at the
spawn state (`lastCheckpoint = 0`). -/
theorem C4_progress_monotone :
    (∀ (t : Track) (s : PState), t.waypoints ≠ [] → playerProgressInv t s →
      playerProgressInv t (PlayerCar.checkWaypoints t s) ∧
      ((PlayerCar.checkWaypoints t s).laps = s.laps →
        FollowerCar.raceProgress t.waypoints.length s.laps s.lastCheckpoint ≤
          FollowerCar.raceProgress t.waypoints.length
            (PlayerCar.checkWaypoints t s).laps
            (PlayerCar.checkWaypoints t s).lastCheckpoint) ∧
      ((PlayerCar.checkWaypoints t s).lastCheckpoint < s.lastCheckpoint →
        (PlayerCar.checkWaypoints t s).laps = s.laps + 1)) ∧
    (∀ (t : Track) (s : FState), t.waypoints ≠ [] → followerProgressInv t s →
      followerProgressInv t (FollowerCar.followPath t s).1 ∧
      ((FollowerCar.followPath t s).1.laps = s.laps →
        FollowerCar.raceProgress t.waypoints.length s.laps s.lastCheckpoint ≤
          FollowerCar.raceProgress t.waypoints.length
            (FollowerCar.followPath t s).1.laps
            (FollowerCar.followPath t s).1.lastCheckpoint) ∧
      ((FollowerCar.followPath t s).1.lastCheckpoint < s.lastCheckpoint →
        (FollowerCar.followPath t s).1.laps = s.laps + 1)) ∧
    (∀ (t : Track) (s : PState), t.waypoints ≠ [] → s.lastCheckpoint = 0 →
      playerProgressInv t s) ∧
    (∀ (t : Track) (s : FState), t.waypoints ≠ [] →
      s.currentWaypointIndex = 0 → s.lastCheckpoint = 0 →
      followerProgressInv t s) := by
  have hcast : ∀ (n cr : ℕ), n ≤ cr + 1 →
      ((cr + 1 : ℕ) : ℝ) ≥ (n : ℝ) * 0.8 := by
    intro n cr h
    have h1 : (n : ℝ) ≤ (cr : ℝ) + 1 := by exact_mod_cast h
    have h2 : (0 : ℝ) ≤ (n : ℝ) := Nat.cast_nonneg n
    push_cast
    nlinarith
  have hprog1 : ∀ N laps last e : ℕ, last < N →
      FollowerCar.raceProgress N laps last ≤
        FollowerCar.raceProgress N (laps + 1) e := by
    intro N laps last e h1
    unfold FollowerCar.raceProgress
    have h2 : (laps + 1) * N = laps * N + N := by ring
    rw [h2, Nat.add_assoc]
    exact Nat.add_le_add_left
      (Nat.le_trans (Nat.le_of_lt h1) (Nat.le_add_right N e)) (laps * N)
  have hprog2 : ∀ N laps last e : ℕ, last ≤ e →
      FollowerCar.raceProgress N laps last ≤
        FollowerCar.raceProgress N laps e := by
    intro N laps last e h
    exact Nat.add_le_add_left h (laps * N)
  refine ⟨?_, ?_, ?_, ?_⟩
  · intro t s hne hinv
    obtain ⟨hlt, hle⟩ := hinv
    have hN : 0 < t.waypoints.length := List.length_pos.mpr hne
    have heR : (s.lastCheckpoint + 1) % t.waypoints.length <
        t.waypoints.length := Nat.mod_lt _ hN
    dsimp only [PlayerCar.checkWaypoints]
    generalize hee : (s.lastCheckpoint + 1) % t.waypoints.length = e
    rw [hee] at heR
    by_cases hd : Vec.dist s.position (t.wp e) < PlayerCar.waypointReachDistance
    · by_cases he : e = 0
      · have hlast : s.lastCheckpoint + 1 = t.waypoints.length := by
          by_contra hx
          have h1 : s.lastCheckpoint + 1 < t.waypoints.length := by omega
          rw [Nat.mod_eq_of_lt h1] at hee
          omega
        have hc : ((s.checkpointsReached + 1 : ℕ) : ℝ) ≥
            (t.waypoints.length : ℝ) * 0.8 := hcast _ _ (by omega)
        rw [if_pos hd, if_pos ⟨he, hc⟩]
        refine ⟨⟨heR, ?_⟩, ?_, fun _ => rfl⟩
        · show e ≤ (0 : ℕ)
          omega
        · intro h
          have h2 : s.laps + 1 = s.laps := h
          omega
      · have hstep : e = s.lastCheckpoint + 1 := by
          rcases Nat.lt_or_ge (s.lastCheckpoint + 1) t.waypoints.length with h2 | h2
          · rw [Nat.mod_eq_of_lt h2] at hee
            omega
          · have h3 : s.lastCheckpoint + 1 = t.waypoints.length := by omega
            rw [h3, Nat.mod_self] at hee
            omega
        rw [if_pos hd, if_neg (fun h => he h.1)]
        refine ⟨⟨heR, ?_⟩, ?_, ?_⟩
        · show e ≤ s.checkpointsReached + 1
          omega
        · intro _
          exact hprog2 t.waypoints.length s.laps s.lastCheckpoint e (by omega)
        · intro h
          have h2 : e < s.lastCheckpoint := h
          omega
    · rw [if_neg hd]
      exact ⟨⟨hlt, hle⟩, fun _ => le_refl _, fun h => absurd h (lt_irrefl _)⟩
  · intro t s hne hinv
    obtain ⟨hlt, hmirror, hle⟩ := hinv
    have hN : 0 < t.waypoints.length := List.length_pos.mpr hne
    have heR : (s.currentWaypointIndex + 1) % t.waypoints.length <
        t.waypoints.length := Nat.mod_lt _ hN
    dsimp only [FollowerCar.followPath]
    generalize hee : (s.currentWaypointIndex + 1) % t.waypoints.length = e
    rw [hee] at heR
    by_cases hd : Vec.dist s.position (t.wp s.currentWaypointIndex) <
        FollowerCar.waypointReachDistance
    · by_cases he : e = 0
      · have hlast : s.currentWaypointIndex + 1 = t.waypoints.length := by
          by_contra hx
          have h1 : s.currentWaypointIndex + 1 < t.waypoints.length := by omega
          rw [Nat.mod_eq_of_lt h1] at hee
          omega
        have hc : ((s.checkpointsReached + 1 : ℕ) : ℝ) ≥
            (t.waypoints.length : ℝ) * 0.8 := hcast _ _ (by omega)
        rw [if_pos hd, if_pos ⟨he, hc⟩]
        refine ⟨⟨heR, rfl, ?_⟩, ?_, fun _ => rfl⟩
        · show e ≤ (0 : ℕ)
          omega
        · intro h
          have h2 : s.laps + 1 = s.laps := h
          omega
      · have hstep : e = s.currentWaypointIndex + 1 := by
          rcases Nat.lt_or_ge (s.currentWaypointIndex + 1) t.waypoints.length with h2 | h2
          · rw [Nat.mod_eq_of_lt h2] at hee
            omega
          · have h3 : s.currentWaypointIndex + 1 = t.waypoints.length := by omega
            rw [h3, Nat.mod_self] at hee
            omega
        rw [if_pos hd, if_neg (fun h => he h.1)]
        refine ⟨⟨heR, rfl, ?_⟩, ?_, ?_⟩
        · show e ≤ s.checkpointsReached + 1
          omega
        · intro _
          exact hprog2 t.waypoints.length s.laps s.lastCheckpoint e (by omega)
        · intro h
          have h2 : e < s.lastCheckpoint := h
          omega
    · rw [if_neg hd]
      exact ⟨⟨hlt, hmirror, hle⟩, fun _ => le_refl _,
        fun h => absurd h (lt_irrefl _)⟩
  · intro t s hne h0
    exact ⟨by rw [h0]; exact List.length_pos.mpr hne, by omega⟩
  · intro t s hne h0 hl
    exact ⟨by rw [h0]; exact List.length_pos.mpr hne, by rw [h0, hl], by omega⟩

/-- Witness for C4 on the 80-waypoint track: a mid-lap state satisfying the
invariant, stepped once. -/
theorem C4_witness :
    (track80.waypoints ≠ [] ∧ playerProgressInv track80 (playerAt 0 0 9 5) ∧
      playerProgressInv track80 (PlayerCar.checkWaypoints track80 (playerAt 0 0 9 5))) ∧
    (track80.waypoints ≠ [] ∧ followerProgressInv track80 (followerAt 0 0 9 5 5) ∧
      followerProgressInv track80
        (FollowerCar.followPath track80 (followerAt 0 0 9 5 5)).1) ∧
    ((playerAt 0 0 0 0).lastCheckpoint = 0 ∧
      playerProgressInv track80 (playerAt 0 0 0 0)) := by
  have hne : track80.waypoints ≠ [] := by simp [track80]
  have hpi : playerProgressInv track80 (playerAt 0 0 9 5) := by
    constructor
    · show (5 : ℕ) < track80.waypoints.length
      simp [track80]
    · show (5 : ℕ) ≤ 9
      norm_num
  have hfi : followerProgressInv track80 (followerAt 0 0 9 5 5) := by
    refine ⟨?_, rfl, ?_⟩
    · show (5 : ℕ) < track80.waypoints.length
      simp [track80]
    · show (5 : ℕ) ≤ 9
      norm_num
  refine ⟨⟨hne, hpi, (C4_progress_monotone.1 track80 (playerAt 0 0 9 5) hne hpi).1⟩,
    ⟨hne, hfi, (C4_progress_monotone.2.1 track80 (followerAt 0 0 9 5 5) hne hfi).1⟩,
    rfl, C4_progress_monotone.2.2.1 track80 (playerAt 0 0 0 0) hne rfl⟩

/-- A sequence of `PlayerCar.update` steps driven by a list of key
states. -/
def playerRun (t : Track) (inps : List KeyInput) (s : PState) : PState :=
  inps.foldl (fun s2 inp => PlayerCar.update t inp s2) s

theorem nitroFuel_handleInput (inp : KeyInput) (s : PState) :
    (PlayerCar.handleInput inp s).nitroFuel = s.nitroFuel := by
  unfold PlayerCar.handleInput
  split <;> rfl

theorem nitroFuel_handleAutoPilot (t : Track) (s : PState) :
    (PlayerCar.handleAutoPilot t s).nitroFuel = s.nitroFuel := by
  unfold PlayerCar.handleAutoPilot
  split <;> rfl

theorem nitroFuel_handleBoundary (t : Track) (s : PState) :
    (PlayerCar.handleBoundary t s).nitroFuel = s.nitroFuel := by
  unfold PlayerCar.handleBoundary
  split
  · rfl
  · split <;> rfl

theorem nitroFuel_obstacleHit (t : Track) (s : PState) :
    (PlayerCar.obstacleHit t s).nitroFuel = s.nitroFuel := by
  unfold PlayerCar.obstacleHit
  split
  · split <;> rfl
  · rfl

theorem nitroFuel_oilEffect (s : PState) :
    (PlayerCar.oilEffect s).nitroFuel = s.nitroFuel := by
  unfold PlayerCar.oilEffect
  dsimp only
  split
  · split <;> rfl
  · rfl

theorem nitroFuel_coneSlowdown (s : PState) :
    (PlayerCar.coneSlowdown s).nitroFuel = s.nitroFuel := by
  unfold PlayerCar.coneSlowdown
  split <;> rfl

theorem nitroFuel_handleObstacles (t : Track) (s : PState) :
    (PlayerCar.handleObstacles t s).nitroFuel = s.nitroFuel := by
  unfold PlayerCar.handleObstacles
  rw [nitroFuel_coneSlowdown, nitroFuel_oilEffect, nitroFuel_obstacleHit]

theorem nitroFuel_checkWaypoints (t : Track) (s : PState) :
    (PlayerCar.checkWaypoints t s).nitroFuel = s.nitroFuel := by
  unfold PlayerCar.checkWaypoints
  dsimp only
  split
  · split <;> rfl
  · rfl

theorem nitroFuel_updateNitro_bounds (s : PState) (h0 : 0 ≤ s.nitroFuel)
    (h1 : s.nitroFuel ≤ PlayerCar.nitroMaxFuel) :
    0 ≤ (PlayerCar.updateNitro s).nitroFuel ∧
      (PlayerCar.updateNitro s).nitroFuel ≤ PlayerCar.nitroMaxFuel := by
  unfold PlayerCar.updateNitro PlayerCar.nitroMaxFuel
    PlayerCar.nitroDrainRate PlayerCar.nitroRechargeRate at *
  split
  · constructor
    · exact le_max_left 0 _
    · apply max_le (by norm_num)
      linarith
  · constructor
    · apply le_min (by norm_num)
      linarith
    · exact min_le_left _ _

/-- C5: nitro fuel stays in `[0, nitroMaxFuel]` across any single update
and any sequence of updates, and requesting nitro through the keys while
the tank is empty leaves `nitroActive` false. -/
theorem C5_nitro_bounds :
    (∀ (t : Track) (inp : KeyInput) (s : PState),
      0 ≤ s.nitroFuel → s.nitroFuel ≤ PlayerCar.nitroMaxFuel →
      0 ≤ (PlayerCar.update t inp s).nitroFuel ∧
        (PlayerCar.update t inp s).nitroFuel ≤ PlayerCar.nitroMaxFuel) ∧
    (∀ (t : Track) (inps : List KeyInput) (s : PState),
      0 ≤ s.nitroFuel → s.nitroFuel ≤ PlayerCar.nitroMaxFuel →
      0 ≤ (playerRun t inps s).nitroFuel ∧
        (playerRun t inps s).nitroFuel ≤ PlayerCar.nitroMaxFuel) ∧
    (∀ (inp : KeyInput) (s : PState), s.nitroFuel = 0 → s.finished = false →
      (PlayerCar.handleInput inp s).nitroActive = false) := by
  have hstep : ∀ (t : Track) (inp : KeyInput) (s : PState),
      0 ≤ s.nitroFuel → s.nitroFuel ≤ PlayerCar.nitroMaxFuel →
      0 ≤ (PlayerCar.update t inp s).nitroFuel ∧
        (PlayerCar.update t inp s).nitroFuel ≤ PlayerCar.nitroMaxFuel := by
    intro t inp s h0 h1
    unfold PlayerCar.update
    split
    · exact ⟨h0, h1⟩
    · have hchain : ∀ s6 : PState,
          ({ s6 with
              position := (Vehicule.edges PlayerCar.r s6.position s6.velocity).1,
              velocity :=
                (Vehicule.edges PlayerCar.r s6.position s6.velocity).2 } :
            PState).nitroFuel = s6.nitroFuel := fun s6 => rfl
      rw [hchain, nitroFuel_checkWaypoints, nitroFuel_handleObstacles,
        nitroFuel_handleBoundary]
      have hint : (PlayerCar.integrate t inp s).nitroFuel =
          (PlayerCar.updateNitro
            (if s.autoMode then PlayerCar.handleAutoPilot t s
             else PlayerCar.handleInput inp s)).nitroFuel := rfl
      rw [hint]
      apply nitroFuel_updateNitro_bounds
      all_goals split
      · rw [nitroFuel_handleAutoPilot]; exact h0
      · rw [nitroFuel_handleInput]; exact h0
      · rw [nitroFuel_handleAutoPilot]; exact h1
      · rw [nitroFuel_handleInput]; exact h1
  refine ⟨hstep, ?_, ?_⟩
  · intro t inps
    induction inps with
    | nil => intro s h0 h1; exact ⟨h0, h1⟩
    | cons inp rest ih =>
      intro s h0 h1
      have hb := hstep t inp s h0 h1
      exact ih (PlayerCar.update t inp s) hb.1 hb.2
  · intro inp s hfuel hfin
    unfold PlayerCar.handleInput
    rw [if_neg (by rw [hfin]; simp)]
    show (inp.nitro && decide (0 < s.nitroFuel)) = false
    rw [hfuel]
    simp

/-- Witness for C5: a fresh player state with a full tank stepped with no
keys held, a two-frame input sequence, and a nitro request on an empty
tank. -/
theorem C5_witness :
    ((0 : ℝ) ≤ (playerAt 0 0 0 0).nitroFuel ∧
      (playerAt 0 0 0 0).nitroFuel ≤ PlayerCar.nitroMaxFuel ∧
      0 ≤ (PlayerCar.update track80 ⟨false, false, false, false, false⟩
        (playerAt 0 0 0 0)).nitroFuel ∧
      (PlayerCar.update track80 ⟨false, false, false, false, false⟩
        (playerAt 0 0 0 0)).nitroFuel ≤ PlayerCar.nitroMaxFuel) ∧
    (0 ≤ (playerRun track80 [⟨false, false, false, false, false⟩,
        ⟨true, false, false, false, true⟩] (playerAt 0 0 0 0)).nitroFuel ∧
      (playerRun track80 [⟨false, false, false, false, false⟩,
        ⟨true, false, false, false, true⟩] (playerAt 0 0 0 0)).nitroFuel ≤
        PlayerCar.nitroMaxFuel) ∧
    (({ playerAt 0 0 0 0 with nitroFuel := 0 } : PState).nitroFuel = 0 ∧
      (PlayerCar.handleInput ⟨false, false, false, false, true⟩
        { playerAt 0 0 0 0 with nitroFuel := 0 }).nitroActive = false) := by
  have hf0 : (0 : ℝ) ≤ (playerAt 0 0 0 0).nitroFuel := by
    show (0 : ℝ) ≤ 100
    norm_num
  have hf1 : (playerAt 0 0 0 0).nitroFuel ≤ PlayerCar.nitroMaxFuel := by
    show (100 : ℝ) ≤ PlayerCar.nitroMaxFuel
    unfold PlayerCar.nitroMaxFuel
    norm_num
  have h1 := C5_nitro_bounds.1 track80 ⟨false, false, false, false, false⟩
    (playerAt 0 0 0 0) hf0 hf1
  have h2 := C5_nitro_bounds.2.1 track80 [⟨false, false, false, false, false⟩,
    ⟨true, false, false, false, true⟩] (playerAt 0 0 0 0) hf0 hf1
  have h3 := C5_nitro_bounds.2.2 ⟨false, false, false, false, true⟩
    { playerAt 0 0 0 0 with nitroFuel := 0 } rfl rfl
  exact ⟨⟨hf0, hf1, h1.1, h1.2⟩, ⟨h2.1, h2.2⟩, rfl, h3⟩

theorem Vec.mag_zero : (0 : Vec).mag = 0 := by
  simpa using Vec.mag_axis_x 0

theorem Vec.mag_sub_comm (a b : Vec) : (a - b).mag = (b - a).mag := by
  have h : b - a = ⟨-(a - b).x, -(a - b).y⟩ := by
    rw [Vec.sub_def, Vec.sub_def]
    ext <;> dsimp <;> ring
  rw [h, Vec.mag_neg_pair]

theorem Vec.smul_assoc_vec (a b : ℝ) (v : Vec) :
    a • (b • v) = (a * b) • v := by
  rw [Vec.smul_def, Vec.smul_def, Vec.smul_def]
  ext <;> dsimp <;> ring

/-- Modelled from the spec claim for C3 (not from the source): the asserted
boundary-force magnitude, proportional to the overshoot — 0 at the margin
and full authority (1.0) at 25 units past it. -/
def specBoundaryMagnitude (overshoot : ℝ) : ℝ := overshoot / 25

/-- A generated-shape track with a single centerline waypoint at the origin
and the level-1 width. -/
def trackC3 : Track :=
  { level := 1, waypoints := [0], trackWidth := 154, obstacles := [] }

/-- C3 counterexample: at overshoot 12.5 the code returns a force of
magnitude 0.65 = 0.3 + 0.7·(12.5/25), not the claimed proportional value
12.5/25 = 0.5. -/
theorem C3_counterexample :
    Track.getTrackBoundaryForce trackC3 ⟨74.5, 0⟩ 0 = some ⟨-0.65, 0⟩ ∧
    Vec.mag ⟨-0.65, 0⟩ ≠ specBoundaryMagnitude
      (Vec.dist ⟨74.5, 0⟩ ⟨0, 0⟩ - (trackC3.trackWidth / 2 - 15)) := by
  have hd : Vec.dist ⟨74.5, 0⟩ (⟨0, 0⟩ : Vec) = 74.5 := by
    show Vec.mag (Vec.mk 74.5 0 - Vec.mk 0 0) = 74.5
    rw [Vec.sub_def]
    norm_num [Vec.mag_axis_x]
  have hidx : Track.getClosestWaypointIndex trackC3 ⟨74.5, 0⟩ = 0 := by
    unfold Track.getClosestWaypointIndex trackC3
    simp [Track.closestScan, Track.ltInf]
  constructor
  · unfold Track.getTrackBoundaryForce
    rw [hidx]
    have hsome : trackC3.waypoints[(0 : ℕ)]? = some 0 := rfl
    rw [hsome]
    dsimp only
    have hzero : (0 : Vec) = ⟨0, 0⟩ := rfl
    rw [show trackC3.trackWidth = 154 from rfl, hzero, hd]
    rw [if_pos (by norm_num)]
    have hnorm : (Vec.mk 0 0 - Vec.mk 74.5 0).normalize = ⟨-1, 0⟩ := by
      have hsub : Vec.mk 0 0 - Vec.mk 74.5 0 = ⟨-74.5, 0⟩ := by
        rw [Vec.sub_def]
        norm_num
      rw [hsub]
      unfold Vec.normalize
      rw [if_neg (by rw [Vec.mag_axis_x]; norm_num)]
      rw [Vec.mag_axis_x,
        show |(-74.5 : ℝ)| = 74.5 from by
          rw [abs_of_neg (by norm_num : (-74.5 : ℝ) < 0)]
          norm_num,
        Vec.smul_def]
      ext <;> dsimp <;> norm_num
    rw [hnorm]
    unfold p5map
    rw [Vec.smul_def]
    norm_num
  · rw [hd, show trackC3.trackWidth = 154 from rfl]
    unfold specBoundaryMagnitude
    rw [show Vec.mag ⟨-0.65, 0⟩ = 0.65 from by norm_num [Vec.mag_axis_x]]
    norm_num

/-- C3 (amended): for a nonempty track of width ≥ 30, the boundary force is
the zero vector exactly when the distance to the nearest waypoint (which the
scan truly minimizes) is at most `trackWidth/2 − 15`; past that margin it is
a nonzero vector pointing toward the nearest waypoint whose magnitude is the
affine map `0.3 + 0.7·overshoot/25` — 0.3 at the margin and 1.0 at 25 units
past it (not 0 at the margin as claimed). -/
theorem C3_boundary_force (t : Track) (pos velocity : Vec)
    (hw : t.waypoints ≠ []) (hwidth : 30 ≤ t.trackWidth) :
    ∃ c : Vec,
      t.waypoints[Track.getClosestWaypointIndex t pos]? = some c ∧
      (∀ j < t.waypoints.length, Vec.dist pos c ≤ Vec.dist pos (t.wp j)) ∧
      (Vec.dist pos c ≤ t.trackWidth / 2 - 15 →
        Track.getTrackBoundaryForce t pos velocity = some 0) ∧
      (t.trackWidth / 2 - 15 < Vec.dist pos c →
        ∃ f : Vec, Track.getTrackBoundaryForce t pos velocity = some f ∧
          f.mag = 0.3 + 0.7 * ((Vec.dist pos c - (t.trackWidth / 2 - 15)) / 25) ∧
          f ≠ 0 ∧ ∃ k : ℝ, 0 < k ∧ f = k • (c - pos)) := by
  obtain ⟨hidx, hmin⟩ := Track.getClosestWaypointIndex_spec t pos hw
  have hsome : t.waypoints[Track.getClosestWaypointIndex t pos]? =
      some (t.wp (Track.getClosestWaypointIndex t pos)) := by
    rw [List.getElem?_eq_getElem hidx]
    unfold Track.wp
    rw [List.getD_eq_getElem _ _ hidx]
  refine ⟨t.wp (Track.getClosestWaypointIndex t pos), hsome, hmin, ?_, ?_⟩
  · intro hle
    unfold Track.getTrackBoundaryForce
    rw [hsome]
    dsimp only
    rw [if_neg (not_lt.mpr hle)]
  · intro hgt
    have hmargin : (0 : ℝ) ≤ t.trackWidth / 2 - 15 := by linarith
    have hdpos : 0 < Vec.dist pos (t.wp (Track.getClosestWaypointIndex t pos)) :=
      lt_of_le_of_lt hmargin hgt
    set c := t.wp (Track.getClosestWaypointIndex t pos) with hcc
    set d := Vec.dist pos c with hdd
    have hmagsub : (c - pos).mag = d := by
      rw [hdd]
      unfold Vec.dist
      exact Vec.mag_sub_comm c pos
    have hmagne : (c - pos).mag ≠ 0 := by
      rw [hmagsub]
      exact ne_of_gt hdpos
    have hmap : p5map (d - (t.trackWidth / 2 - 15)) 0 25 0.3 1.0 =
        0.3 + 0.7 * ((d - (t.trackWidth / 2 - 15)) / 25) := by
      unfold p5map
      ring
    have hmappos : 0 < p5map (d - (t.trackWidth / 2 - 15)) 0 25 0.3 1.0 := by
      rw [hmap]
      have h1 : 0 < d - (t.trackWidth / 2 - 15) := by linarith
      positivity
    unfold Track.getTrackBoundaryForce
    rw [hsome]
    dsimp only
    rw [if_pos hgt]
    refine ⟨_, rfl, ?_, ?_, ?_⟩
    · rw [Vec.mag_smul, Vec.mag_normalize hmagne,
        abs_of_pos hmappos, mul_one, hmap]
    · intro hzero
      have := congrArg Vec.mag hzero
      rw [Vec.mag_smul, Vec.mag_normalize hmagne, Vec.mag_zero,
        abs_of_pos hmappos, mul_one] at this
      exact absurd this (ne_of_gt hmappos)
    · refine ⟨p5map (d - (t.trackWidth / 2 - 15)) 0 25 0.3 1.0 / (c - pos).mag,
        div_pos hmappos (lt_of_le_of_ne (Vec.mag_nonneg _) (Ne.symm hmagne)), ?_⟩
      unfold Vec.normalize
      rw [if_neg hmagne, Vec.smul_assoc_vec]
      rw [mul_one_div]

/-- Witness for C3: the single-waypoint level-1 track queried from inside
the margin and from 12.5 units past it. -/
theorem C3_witness :
    (trackC3.waypoints ≠ [] ∧ (30 : ℝ) ≤ trackC3.trackWidth) ∧
    (∃ c : Vec,
      trackC3.waypoints[Track.getClosestWaypointIndex trackC3 ⟨74.5, 0⟩]? = some c ∧
      (∀ j < trackC3.waypoints.length,
        Vec.dist ⟨74.5, 0⟩ c ≤ Vec.dist ⟨74.5, 0⟩ (trackC3.wp j)) ∧
      (Vec.dist ⟨74.5, 0⟩ c ≤ trackC3.trackWidth / 2 - 15 →
        Track.getTrackBoundaryForce trackC3 ⟨74.5, 0⟩ 0 = some 0) ∧
      (trackC3.trackWidth / 2 - 15 < Vec.dist ⟨74.5, 0⟩ c →
        ∃ f : Vec, Track.getTrackBoundaryForce trackC3 ⟨74.5, 0⟩ 0 = some f ∧
          f.mag = 0.3 + 0.7 *
            ((Vec.dist ⟨74.5, 0⟩ c - (trackC3.trackWidth / 2 - 15)) / 25) ∧
          f ≠ 0 ∧ ∃ k : ℝ, 0 < k ∧ f = k • (c - ⟨74.5, 0⟩))) := by
  have hw : trackC3.waypoints ≠ [] := by simp [trackC3]
  have hwidth : (30 : ℝ) ≤ trackC3.trackWidth := by
    show (30 : ℝ) ≤ 154
    norm_num
  exact ⟨⟨hw, hwidth⟩, C3_boundary_force trackC3 ⟨74.5, 0⟩ 0 hw hwidth⟩

theorem Vec.add_zero_v (a : Vec) : a + 0 = a := by
  rw [Vec.add_def, Vec.zero_def]
  ext <;> dsimp <;> ring

theorem Vec.zero_add_v (a : Vec) : (0 : Vec) + a = a := by
  rw [Vec.add_def, Vec.zero_def]
  ext <;> dsimp <;> ring

theorem Vec.add_assoc_v (a b c : Vec) : a + b + c = a + (b + c) := by
  simp only [Vec.add_def]
  ext <;> dsimp <;> ring

theorem Vec.mag_perp (v : Vec) : Vec.mag ⟨-v.y, v.x⟩ = v.mag := by
  unfold Vec.mag Vec.magSq
  ring_nf

theorem Vec.eq_zero_of_magSq_eq_zero {v : Vec} (h : v.magSq = 0) :
    v = ⟨0, 0⟩ := by
  unfold Vec.magSq at h
  have hx2 : v.x * v.x = 0 := by
    nlinarith [mul_self_nonneg v.x, mul_self_nonneg v.y]
  have hy2 : v.y * v.y = 0 := by
    nlinarith [mul_self_nonneg v.x, mul_self_nonneg v.y]
  ext
  · exact mul_self_eq_zero.mp hx2
  · exact mul_self_eq_zero.mp hy2

theorem Vec.dot_zero_right (a : Vec) : Vec.dot a ⟨0, 0⟩ = 0 := by
  unfold Vec.dot
  dsimp
  ring

/-- Folding vector accumulation from an arbitrary seed splits off the
seed. -/
theorem foldl_add_shift (g : Obstacle → Vec) :
    ∀ (l : List Obstacle) (a : Vec),
      l.foldl (fun acc o => acc + g o) a =
        a + l.foldl (fun acc o => acc + g o) 0 := by
  intro l
  induction l with
  | nil =>
    intro a
    dsimp [List.foldl]
    rw [Vec.add_zero_v]
  | cons o rest ih =>
    intro a
    dsimp [List.foldl]
    rw [ih (a + g o), ih ((0 : Vec) + g o), Vec.zero_add_v, Vec.add_assoc_v]

/-- Under the forward-cone condition the obstacle offset cannot be the zero
vector. -/
theorem toObs_ne_zero_of_dot {vel toObs : Vec}
    (h : 0.3 < Vec.dot vel.normalize toObs.normalize) : toObs.mag ≠ 0 := by
  intro h0
  have hsq : toObs.magSq = 0 := Vec.mag_eq_zero.mp h0
  have hz : toObs = ⟨0, 0⟩ := Vec.eq_zero_of_magSq_eq_zero hsq
  rw [hz] at h
  have hnz : (⟨0, 0⟩ : Vec).normalize = ⟨0, 0⟩ := by
    unfold Vec.normalize
    rw [if_pos (by simpa using Vec.mag_axis_x 0)]
  rw [hnz, Vec.dot_zero_right] at h
  norm_num at h

/-- Modelled from the spec claim for C8 (not from the source): the asserted
per-obstacle deflection magnitude, a linear map sending distance
`lookAhead` to 1.5 down to distance 0 at 0.3. -/
def specAvoidMagnitude (lookAhead d : ℝ) : ℝ :=
  0.3 + (1.5 - 0.3) * (d / lookAhead)

/-- A cone 60 units straight ahead of the origin. -/
def coneC8 : Obstacle :=
  { type := ObstacleType.cone, position := ⟨60, 0⟩, radius := 12 }

/-- A track carrying only `coneC8`. -/
def trackC8 : Track :=
  { level := 1, waypoints := [0], trackWidth := 154, obstacles := [coneC8] }

/-- C8 counterexample: for the cone at distance exactly `lookAhead = 60`
(inside range because of its radius) the code contributes magnitude 0.3,
while the claimed map `lookAhead→1.5` asserts 1.5. -/
theorem C8_counterexample :
    Track.getObstacleAvoidanceForce trackC8 ⟨0, 0⟩ ⟨1, 0⟩ 60 = ⟨0, 0.3⟩ ∧
    Vec.mag ⟨0, 0.3⟩ ≠
      specAvoidMagnitude 60 (Vec.mag ((⟨60, 0⟩ : Vec) - ⟨0, 0⟩)) := by
  have hsub : (⟨60, 0⟩ : Vec) - ⟨0, 0⟩ = ⟨60, 0⟩ := by
    rw [Vec.sub_def]
    norm_num
  have hmag60 : Vec.mag ⟨60, 0⟩ = 60 := by
    rw [Vec.mag_axis_x]
    norm_num
  constructor
  · unfold Track.getObstacleAvoidanceForce trackC8 coneC8
    dsimp [List.foldl]
    unfold Track.avoidContribution
    dsimp only
    rw [hsub, hmag60]
    rw [if_pos (by norm_num)]
    have hn1 : (⟨1, 0⟩ : Vec).normalize = ⟨1, 0⟩ := by
      unfold Vec.normalize
      rw [if_neg (by rw [Vec.mag_axis_x]; norm_num)]
      rw [Vec.mag_axis_x, Vec.smul_def]
      ext <;> dsimp <;> norm_num
    have hn60 : (⟨60, 0⟩ : Vec).normalize = ⟨1, 0⟩ := by
      unfold Vec.normalize
      rw [if_neg (by rw [Vec.mag_axis_x]; norm_num)]
      rw [Vec.mag_axis_x, Vec.smul_def]
      ext <;> dsimp <;> norm_num
    rw [hn1, hn60]
    rw [if_pos (by unfold Vec.dot; dsimp; norm_num)]
    have hperp : (⟨-(0 : ℝ), (60 : ℝ)⟩ : Vec).normalize = ⟨0, 1⟩ := by
      have h1 : (⟨-(0 : ℝ), (60 : ℝ)⟩ : Vec) = ⟨0, 60⟩ := by norm_num
      rw [h1]
      unfold Vec.normalize
      rw [if_neg (by rw [Vec.mag_axis_y]; norm_num)]
      rw [Vec.mag_axis_y, Vec.smul_def]
      ext <;> dsimp <;> norm_num
    rw [hperp]
    unfold p5map
    rw [Vec.smul_def, Vec.zero_def, Vec.add_def]
    ext <;> dsimp <;> norm_num
  · rw [hsub, hmag60]
    unfold specAvoidMagnitude
    rw [show Vec.mag ⟨0, 0.3⟩ = 0.3 from by rw [Vec.mag_axis_y]; norm_num]
    norm_num

/-- C8 (amended): `getObstacleAvoidanceForce` is additive over the obstacle
list (no early exit, multiple obstacles compound); a single obstacle inside
`lookAhead + radius` and in the forward cone (`dot > 0.3`) contributes the
normalized perpendicular deflection scaled by `map(d, 0, lookAhead, 1.5,
0.3) = 1.5 − 1.2·d/lookAhead` — 1.5 at distance 0 decreasing to 0.3 at
`lookAhead`, the reverse of the claim's parenthetical — an obstacle failing
either condition contributes zero, and the magnitude map is strictly
decreasing and positive on `[0, lookAhead]`. -/
theorem C8_avoidance_force :
    (∀ (t : Track) (o1 o2 : List Obstacle) (pos vel : Vec) (L : ℝ),
      Track.getObstacleAvoidanceForce { t with obstacles := o1 ++ o2 } pos vel L =
        Track.getObstacleAvoidanceForce { t with obstacles := o1 } pos vel L +
          Track.getObstacleAvoidanceForce { t with obstacles := o2 } pos vel L) ∧
    (∀ (t : Track) (o : Obstacle) (pos vel : Vec) (L : ℝ),
      t.obstacles = [o] →
      ((o.position - pos).mag < L + o.radius →
        0.3 < Vec.dot vel.normalize (o.position - pos).normalize →
        Track.getObstacleAvoidanceForce t pos vel L =
          p5map (o.position - pos).mag 0 L 1.5 0.3 •
            Vec.normalize ⟨-(o.position - pos).y, (o.position - pos).x⟩ ∧
        (0 < L → (o.position - pos).mag ≤ L →
          (Track.getObstacleAvoidanceForce t pos vel L).mag =
            1.5 - 1.2 * ((o.position - pos).mag / L))) ∧
      ((¬ (o.position - pos).mag < L + o.radius ∨
        ¬ 0.3 < Vec.dot vel.normalize (o.position - pos).normalize) →
        Track.getObstacleAvoidanceForce t pos vel L = 0)) ∧
    (∀ L d1 d2 : ℝ, 0 < L → 0 ≤ d1 → d1 < d2 → d2 ≤ L →
      p5map d2 0 L 1.5 0.3 < p5map d1 0 L 1.5 0.3 ∧
      0 < p5map d2 0 L 1.5 0.3) := by
  have hmap : ∀ d L : ℝ, p5map d 0 L 1.5 0.3 = 1.5 - 1.2 * (d / L) := by
    intro d L
    unfold p5map
    ring
  refine ⟨?_, ?_, ?_⟩
  · intro t o1 o2 pos vel L
    unfold Track.getObstacleAvoidanceForce
    dsimp only
    rw [List.foldl_append,
      foldl_add_shift (Track.avoidContribution pos vel L) o2]
  · intro t o pos vel L hobs
    have hforce : Track.getObstacleAvoidanceForce t pos vel L =
        Track.avoidContribution pos vel L o := by
      unfold Track.getObstacleAvoidanceForce
      rw [hobs]
      dsimp [List.foldl]
      rw [Vec.zero_add_v]
    constructor
    · intro h1 h2
      have hcontrib : Track.avoidContribution pos vel L o =
          p5map (o.position - pos).mag 0 L 1.5 0.3 •
            Vec.normalize ⟨-(o.position - pos).y, (o.position - pos).x⟩ := by
        unfold Track.avoidContribution
        dsimp only
        rw [if_pos h1, if_pos h2]
      refine ⟨by rw [hforce, hcontrib], ?_⟩
      intro hL hdle
      have hne : (o.position - pos).mag ≠ 0 := toObs_ne_zero_of_dot h2
      have hperpne : Vec.mag ⟨-(o.position - pos).y, (o.position - pos).x⟩ ≠ 0 := by
        rw [Vec.mag_perp]
        exact hne
      have hpos : 0 < p5map (o.position - pos).mag 0 L 1.5 0.3 := by
        rw [hmap]
        have hd1 : (o.position - pos).mag / L ≤ 1 := (div_le_one hL).mpr hdle
        linarith
      rw [hforce, hcontrib, Vec.mag_smul, Vec.mag_normalize hperpne,
        abs_of_pos hpos, mul_one, hmap]
    · intro hfail
      rw [hforce]
      unfold Track.avoidContribution
      dsimp only
      rcases hfail with h | h
      · rw [if_neg h]
      · by_cases h1 : (o.position - pos).mag < L + o.radius
        · rw [if_pos h1, if_neg h]
        · rw [if_neg h1]
  · intro L d1 d2 hL h0 h12 h2L
    rw [hmap, hmap]
    have hdiv : d1 / L < d2 / L := by
      rw [div_lt_div_iff₀ hL hL]
      nlinarith
    have hle1 : d2 / L ≤ 1 := (div_le_one hL).mpr h2L
    constructor <;> linarith

/-- Witness for C8: the single cone dead ahead at distance 60 with
`lookAhead = 60`, plus the magnitude map at distances 10 and 50. -/
theorem C8_witness :
    (trackC8.obstacles = [coneC8] ∧
      (coneC8.position - (⟨0, 0⟩ : Vec)).mag < 60 + coneC8.radius ∧
      0.3 < Vec.dot (⟨1, 0⟩ : Vec).normalize
        (coneC8.position - (⟨0, 0⟩ : Vec)).normalize ∧
      Track.getObstacleAvoidanceForce trackC8 ⟨0, 0⟩ ⟨1, 0⟩ 60 =
        p5map (coneC8.position - (⟨0, 0⟩ : Vec)).mag 0 60 1.5 0.3 •
          Vec.normalize ⟨-(coneC8.position - (⟨0, 0⟩ : Vec)).y,
            (coneC8.position - (⟨0, 0⟩ : Vec)).x⟩) ∧
    ((0 : ℝ) < 60 ∧ (0 : ℝ) ≤ 10 ∧ (10 : ℝ) < 50 ∧ (50 : ℝ) ≤ 60 ∧
      p5map 50 0 60 1.5 0.3 < p5map 10 0 60 1.5 0.3 ∧
      0 < p5map 50 0 60 1.5 0.3) := by
  have hsub : coneC8.position - (⟨0, 0⟩ : Vec) = ⟨60, 0⟩ := by
    show (⟨60, 0⟩ : Vec) - ⟨0, 0⟩ = ⟨60, 0⟩
    rw [Vec.sub_def]
    norm_num
  have h1 : (coneC8.position - (⟨0, 0⟩ : Vec)).mag < 60 + coneC8.radius := by
    rw [hsub, Vec.mag_axis_x]
    show |(60 : ℝ)| < 60 + 12
    norm_num
  have hn1 : (⟨1, 0⟩ : Vec).normalize = ⟨1, 0⟩ := by
    unfold Vec.normalize
    rw [if_neg (by rw [Vec.mag_axis_x]; norm_num)]
    rw [Vec.mag_axis_x, Vec.smul_def]
    ext <;> dsimp <;> norm_num
  have hn60 : (⟨60, 0⟩ : Vec).normalize = ⟨1, 0⟩ := by
    unfold Vec.normalize
    rw [if_neg (by rw [Vec.mag_axis_x]; norm_num)]
    rw [Vec.mag_axis_x, Vec.smul_def]
    ext <;> dsimp <;> norm_num
  have h2 : 0.3 < Vec.dot (⟨1, 0⟩ : Vec).normalize
      (coneC8.position - (⟨0, 0⟩ : Vec)).normalize := by
    rw [hsub, hn1, hn60]
    unfold Vec.dot
    dsimp
    norm_num
  have hmain := (C8_avoidance_force.2.1 trackC8 coneC8 ⟨0, 0⟩ ⟨1, 0⟩ 60 rfl).1 h1 h2
  have hmono := C8_avoidance_force.2.2 60 10 50 (by norm_num) (by norm_num)
    (by norm_num) (by norm_num)
  exact ⟨⟨rfl, h1, h2, hmain.1⟩, by norm_num, by norm_num, by norm_num,
    by norm_num, hmono.1, hmono.2⟩

/-- The screen-edge bounce never increases the speed: each velocity
component is either kept or multiplied by −0.5. -/
theorem edges_velocity_mag_le (margin : ℝ) (p v : Vec) :
    ((Vehicule.edges margin p v).2).mag ≤ v.mag := by
  apply Vec.mag_le_of_abs_le
  · show |(if p.x < margin then (margin, v.x * (-0.5))
      else if canvasWidth - margin < p.x then (canvasWidth - margin, v.x * (-0.5))
      else (p.x, v.x)).2| ≤ |v.x|
    split_ifs <;> dsimp
    · rw [abs_mul, show |(-0.5 : ℝ)| = 0.5 from by norm_num]
      nlinarith [abs_nonneg v.x]
    · rw [abs_mul, show |(-0.5 : ℝ)| = 0.5 from by norm_num]
      nlinarith [abs_nonneg v.x]
    · exact le_refl _
  · show |(if p.y < margin then (margin, v.y * (-0.5))
      else if canvasHeight - margin < p.y then (canvasHeight - margin, v.y * (-0.5))
      else (p.y, v.y)).2| ≤ |v.y|
    split_ifs <;> dsimp
    · rw [abs_mul, show |(-0.5 : ℝ)| = 0.5 from by norm_num]
      nlinarith [abs_nonneg v.y]
    · rw [abs_mul, show |(-0.5 : ℝ)| = 0.5 from by norm_num]
      nlinarith [abs_nonneg v.y]
    · exact le_refl _

/-- C1 (amended): the speed bound holds where the clamp sits — at the end of
`Vehicule.update`, at the end of `FollowerCar.update` (the edge bounce only
shrinks components), and in `PlayerCar.update` right after the clamp and
position integration (`PlayerCar.integrate`), with the cap `nitroMaxspeed`
while nitro is active and `maxspeed` otherwise.  The subsequent
`handleBoundary`/`handleObstacles` handlers can push the player's speed
back above the cap (see the counterexample). -/
theorem C1_speed_clamp :
    (∀ s : VState, 0 ≤ s.maxspeed →
      ((Vehicule.update s).velocity).mag ≤ s.maxspeed) ∧
    (∀ s : FState, 0 ≤ s.maxspeed → s.finished = false →
      ((FollowerCar.update s).velocity).mag ≤ s.maxspeed) ∧
    (∀ (t : Track) (inp : KeyInput) (s : PState),
      ((PlayerCar.integrate t inp s).velocity).mag ≤
        (if (PlayerCar.integrate t inp s).nitroActive then PlayerCar.nitroMaxspeed
         else PlayerCar.maxspeed)) := by
  refine ⟨?_, ?_, ?_⟩
  · intro s hm
    exact Vec.mag_limit_le hm _
  · intro s hm hfin
    unfold FollowerCar.update
    rw [if_neg (by rw [hfin]; simp)]
    dsimp only
    exact le_trans (edges_velocity_mag_le _ _ _) (Vec.mag_limit_le hm _)
  · intro t inp s
    unfold PlayerCar.integrate
    dsimp only
    apply Vec.mag_limit_le
    split_ifs <;> norm_num [PlayerCar.nitroMaxspeed, PlayerCar.maxspeed]

/-- A fully explicit player state: position, velocity, angle, fuel and
nitro flag given, everything else at the constructor values. -/
def pstate (px py vx vy angle fuel : ℝ) (act : Bool) : PState :=
  { position := ⟨px, py⟩, velocity := ⟨vx, vy⟩, angle := angle, laps := 0,
    checkpointsReached := 0, lastCheckpoint := 0, finished := false,
    autoMode := false, nitroFuel := fuel, nitroActive := act,
    driftFactor := 0.90, onOil := false, oilTimer := 0, slowdownTimer := 0 }

/-- No key held. -/
def noKeys : KeyInput :=
  { up := false, down := false, left := false, right := false, nitro := false }

/-- A level-1-width track with one waypoint at (0, 300). -/
def trackC1 : Track :=
  { level := 1, waypoints := [⟨0, 300⟩], trackWidth := 154, obstacles := [] }

/-- The C1 counterexample start state: heading −x at full speed, 92.82
units right of the waypoint. -/
def sC1 : PState := pstate 92.82 300 (-6) 0 0 100 false

/-- C1 counterexample: after one full `PlayerCar.update` with no keys held
and nitro inactive, `handleBoundary` (which runs after the speed clamp) has
raised the speed to 6.947 > maxspeed = 6. -/
theorem C1_counterexample :
    (PlayerCar.update trackC1 noKeys sC1).nitroActive = false ∧
    PlayerCar.maxspeed < ((PlayerCar.update trackC1 noKeys sC1).velocity).mag := by
  have hfrom0 : Vec.fromAngle 0 = ⟨1, 0⟩ := by
    unfold Vec.fromAngle
    rw [Real.cos_zero, Real.sin_zero]
  have hdist87 : Vec.dist ⟨87, 300⟩ (⟨0, 300⟩ : Vec) = 87 := by
    unfold Vec.dist
    rw [Vec.sub_def]
    norm_num [Vec.mag_axis_x]
  -- input stage: no keys held leaves the state unchanged
  have h1 : PlayerCar.handleInput noKeys sC1 = sC1 := by
    unfold PlayerCar.handleInput noKeys sC1 pstate
    norm_num
  -- nitro stage: inactive with a full tank, the recharge clamps at 100
  have h2 : PlayerCar.updateNitro sC1 = sC1 := by
    unfold PlayerCar.updateNitro sC1 pstate PlayerCar.nitroMaxFuel
      PlayerCar.nitroRechargeRate
    norm_num
  -- friction, drift and the clamp: velocity (−5.82, 0), position (87, 300)
  have h3 : PlayerCar.integrate trackC1 noKeys sC1 =
      pstate 87 300 (-5.82) 0 0 100 false := by
    unfold PlayerCar.integrate
    dsimp only
    rw [if_neg (show ¬sC1.autoMode = true from by unfold sC1 pstate; simp)]
    rw [h1, h2]
    unfold sC1 pstate PlayerCar.friction PlayerCar.maxspeed
      PlayerCar.nitroMaxspeed
    dsimp only
    rw [hfrom0]
    norm_num [Vec.smul_def, Vec.dot, Vec.lerp, Vec.add_def, Vec.sub_def,
      Vec.limit, Vec.magSq]
  -- the boundary force at (87, 300): overshoot 25, full unit pull (−1, 0)
  have hidx : Track.getClosestWaypointIndex trackC1 ⟨87, 300⟩ = 0 := by
    unfold Track.getClosestWaypointIndex trackC1
    simp [Track.closestScan, Track.ltInf]
  have hbf : ∀ vel : Vec,
      Track.getTrackBoundaryForce trackC1 ⟨87, 300⟩ vel = some ⟨-1, 0⟩ := by
    intro vel
    unfold Track.getTrackBoundaryForce
    rw [hidx, show trackC1.waypoints[(0 : ℕ)]? = some ⟨0, 300⟩ from rfl]
    dsimp only
    rw [hdist87, show trackC1.trackWidth = 154 from rfl]
    rw [if_pos (by norm_num)]
    rw [show (⟨0, 300⟩ : Vec) - ⟨87, 300⟩ = ⟨-87, 0⟩ from by
      rw [Vec.sub_def]; norm_num]
    have hnorm : (⟨-87, 0⟩ : Vec).normalize = ⟨-1, 0⟩ := by
      unfold Vec.normalize
      rw [if_neg (by rw [Vec.mag_axis_x]; norm_num)]
      rw [Vec.mag_axis_x,
        show |(-87 : ℝ)| = 87 from by
          rw [abs_of_neg (by norm_num : (-87 : ℝ) < 0)]
          norm_num,
        Vec.smul_def]
      ext <;> dsimp <;> norm_num
    rw [hnorm]
    unfold p5map
    rw [Vec.smul_def]
    norm_num
  -- handleBoundary runs after the clamp: 0.85·(−5.82) − 2 = −6.947
  have h4 : PlayerCar.handleBoundary trackC1 (pstate 87 300 (-5.82) 0 0 100 false) =
      pstate 87 300 (-6.947) 0 0 100 false := by
    unfold PlayerCar.handleBoundary
    rw [show (pstate 87 300 (-5.82) 0 0 100 false).position = (⟨87, 300⟩ : Vec)
      from rfl]
    rw [hbf (pstate 87 300 (-5.82) 0 0 100 false).velocity]
    dsimp only
    rw [if_pos (by
      rw [show Vec.mag ⟨-1, 0⟩ = 1 from by
        rw [Vec.mag_axis_x, abs_of_neg (by norm_num : (-1 : ℝ) < 0)]
        norm_num]
      norm_num)]
    unfold pstate
    dsimp only
    norm_num [Vec.smul_def, Vec.add_def]
  -- no obstacles, no timers: handleObstacles is the identity here
  have h5 : PlayerCar.handleObstacles trackC1
      (pstate 87 300 (-6.947) 0 0 100 false) =
      pstate 87 300 (-6.947) 0 0 100 false := by
    simp [PlayerCar.handleObstacles, PlayerCar.obstacleHit, PlayerCar.oilEffect,
      PlayerCar.coneSlowdown, Track.checkObstacleCollision, Track.findHit,
      trackC1, pstate]
  -- the next (and only) waypoint is 87 > 65 away: no checkpoint advance
  have h6 : PlayerCar.checkWaypoints trackC1
      (pstate 87 300 (-6.947) 0 0 100 false) =
      pstate 87 300 (-6.947) 0 0 100 false := by
    unfold PlayerCar.checkWaypoints
    dsimp only
    rw [show (pstate 87 300 (-6.947) 0 0 100 false).lastCheckpoint = 0 from rfl]
    rw [show ((0 + 1) % trackC1.waypoints.length : ℕ) = 0 from by
      simp [trackC1]]
    rw [show trackC1.wp 0 = ⟨0, 300⟩ from rfl]
    rw [show (pstate 87 300 (-6.947) 0 0 100 false).position = (⟨87, 300⟩ : Vec)
      from rfl]
    rw [hdist87]
    rw [if_neg (by unfold PlayerCar.waypointReachDistance; norm_num)]
  -- the screen-edge bounce is inactive at (87, 300) on the 1000×700 canvas
  have hedges : Vehicule.edges PlayerCar.r
      (pstate 87 300 (-6.947) 0 0 100 false).position
      (pstate 87 300 (-6.947) 0 0 100 false).velocity =
      ((⟨87, 300⟩ : Vec), (⟨-6.947, 0⟩ : Vec)) := by
    unfold Vehicule.edges PlayerCar.r canvasWidth canvasHeight pstate
    dsimp only
    norm_num
  have h7 : PlayerCar.update trackC1 noKeys sC1 =
      pstate 87 300 (-6.947) 0 0 100 false := by
    unfold PlayerCar.update
    rw [if_neg (show ¬sC1.finished = true from by unfold sC1 pstate; simp)]
    dsimp only
    rw [h3, h4, h5, h6, hedges]
    rfl
  rw [h7]
  refine ⟨rfl, ?_⟩
  rw [show ((pstate 87 300 (-6.947) 0 0 100 false).velocity) = ⟨-6.947, 0⟩
    from rfl]
  rw [Vec.mag_axis_x, abs_of_neg (by norm_num : (-6.947 : ℝ) < 0)]
  unfold PlayerCar.maxspeed
  norm_num

/-- The base-vehicle witness state: constructor defaults with velocity
(3, 4). -/
def vC1 : VState :=
  { position := ⟨0, 0⟩, velocity := ⟨3, 4⟩, acceleration := ⟨0, 0⟩,
    r := 10, maxforce := 0.2, maxspeed := 4 }

/-- Witness for C1: the base vehicle clamped from speed 5 to 4, a fresh
follower, and the counterexample player state right after integration. -/
theorem C1_witness :
    ((0 : ℝ) ≤ vC1.maxspeed ∧
      ((Vehicule.update vC1).velocity).mag ≤ 4) ∧
    ((0 : ℝ) ≤ (followerAt 0 0 0 0 0).maxspeed ∧
      (followerAt 0 0 0 0 0).finished = false ∧
      ((FollowerCar.update (followerAt 0 0 0 0 0)).velocity).mag ≤
        (followerAt 0 0 0 0 0).maxspeed) ∧
    ((PlayerCar.integrate trackC1 noKeys sC1).velocity).mag ≤
      (if (PlayerCar.integrate trackC1 noKeys sC1).nitroActive
       then PlayerCar.nitroMaxspeed else PlayerCar.maxspeed) := by
  refine ⟨⟨?_, ?_⟩, ⟨?_, rfl, ?_⟩, ?_⟩
  · show (0 : ℝ) ≤ 4
    norm_num
  · exact C1_speed_clamp.1 vC1 (by show (0 : ℝ) ≤ 4; norm_num)
  · show (0 : ℝ) ≤ 4
    norm_num
  · exact C1_speed_clamp.2.1 (followerAt 0 0 0 0 0) (by show (0 : ℝ) ≤ 4; norm_num) rfl
  · exact C1_speed_clamp.2.2 trackC1 noKeys sC1

/-- Some competitor has reached the `LAPS_TO_WIN = 2` finish condition. -/
def finishReached (g : Game) : Prop :=
  LAPS_TO_WIN ≤ g.playerCar.laps ∨ ∃ ai ∈ g.aiCars, LAPS_TO_WIN ≤ ai.laps

theorem frameStep_of_not_playing (inp : KeyInput) (g : Game)
    (h : g.mode ≠ GameMode.playing) : frameStep inp g = g := by
  unfold frameStep
  cases hm2 : g.mode
  case playing => exact absurd hm2 h
  all_goals rfl

theorem frameRun_of_not_playing (inps : List KeyInput) (g : Game)
    (h : g.mode ≠ GameMode.playing) : frameRun inps g = g := by
  induction inps with
  | nil => rfl
  | cons i is ih =>
    unfold frameRun
    dsimp [List.foldl]
    rw [frameStep_of_not_playing i g h]
    exact ih

theorem checkRaceFinished_laps (g : Game) :
    (checkRaceFinished g).playerCar.laps = g.playerCar.laps ∧
      (checkRaceFinished g).aiCars = g.aiCars := by
  unfold checkRaceFinished
  split
  · exact ⟨rfl, rfl⟩
  · split
    · exact ⟨rfl, rfl⟩
    · exact ⟨rfl, rfl⟩

theorem checkRaceFinished_mode (g : Game) (hrf : g.raceFinished = false)
    (hfin : finishReached g) :
    (checkRaceFinished g).mode ≠ GameMode.playing := by
  unfold checkRaceFinished
  by_cases hp : LAPS_TO_WIN ≤ g.playerCar.laps ∧ g.raceFinished = false
  · rw [if_pos hp]
    dsimp only
    split <;> decide
  · rw [if_neg hp]
    have hai : ∃ ai ∈ g.aiCars, LAPS_TO_WIN ≤ ai.laps := by
      rcases hfin with h | h
      · exact absurd ⟨h, hrf⟩ hp
      · exact h
    obtain ⟨ai, hmem, hlaps⟩ := hai
    rw [if_pos ⟨hrf, List.any_eq_true.mpr ⟨ai, hmem, decide_eq_true hlaps⟩⟩]
    exact fun hx => GameMode.noConfusion hx

theorem updateGame_mode_not_playing (inp : KeyInput) (g : Game)
    (hrf : g.raceFinished = false) (hfin : finishReached (updateGame inp g)) :
    (updateGame inp g).mode ≠ GameMode.playing := by
  unfold updateGame at hfin ⊢
  dsimp only at hfin ⊢
  apply checkRaceFinished_mode
  · exact hrf
  · rcases hfin with h | h
    · left
      rw [(checkRaceFinished_laps _).1] at h
      exact h
    · right
      rw [(checkRaceFinished_laps _).2] at h
      exact h

/-- C6: once any competitor reaches `laps = LAPS_TO_WIN = 2` during a
playing frame, `checkRaceFinished` leaves the `playing` state at the end of
that frame, so every subsequent frame is the identity: no force or
integration update runs again, and every competitor's position and velocity
stay exactly as they were when the race ended. -/
theorem C6_finish_freezes (g : Game) (inp : KeyInput)
    (hmode : g.mode = GameMode.playing) (hrf : g.raceFinished = false)
    (hfin : finishReached (frameStep inp g)) :
    (frameStep inp g).mode ≠ GameMode.playing ∧
    (∀ inps : List KeyInput,
      frameRun inps (frameStep inp g) = frameStep inp g) ∧
    (∀ inps : List KeyInput,
      (frameRun inps (frameStep inp g)).playerCar.position =
        (frameStep inp g).playerCar.position ∧
      (frameRun inps (frameStep inp g)).playerCar.velocity =
        (frameStep inp g).playerCar.velocity ∧
      (frameRun inps (frameStep inp g)).aiCars = (frameStep inp g).aiCars) := by
  have hstep : frameStep inp g = updateGame inp g := by
    unfold frameStep
    rw [hmode]
  have hnp : (frameStep inp g).mode ≠ GameMode.playing := by
    rw [hstep]
    apply updateGame_mode_not_playing inp g hrf
    rw [← hstep]
    exact hfin
  have hall : ∀ inps : List KeyInput,
      frameRun inps (frameStep inp g) = frameStep inp g := fun inps =>
    frameRun_of_not_playing inps (frameStep inp g) hnp
  exact ⟨hnp, hall, fun inps => by rw [hall inps]; exact ⟨rfl, rfl, rfl⟩⟩

/-- The C6 witness game: a playing frame whose player has already banked 2
laps, no AI cars, on the one-waypoint track. -/
def gC6 : Game :=
  { mode := GameMode.playing, raceFinished := false, winner := none,
    playerPosition := 1, racePositions := [],
    playerCar := { playerAt 0 2 0 0 with finished := true },
    aiCars := [], track := trackC1, currentLevel := 1, unlockedLevel := 1 }

/-- Witness for C6: stepping `gC6` once reaches the finish condition and
freezes the simulation for a concrete three-frame input sequence. -/
theorem C6_witness :
    gC6.mode = GameMode.playing ∧ gC6.raceFinished = false ∧
    finishReached (frameStep noKeys gC6) ∧
    (frameStep noKeys gC6).mode ≠ GameMode.playing ∧
    frameRun [noKeys, noKeys, noKeys] (frameStep noKeys gC6) =
      frameStep noKeys gC6 := by
  have hfin : finishReached (frameStep noKeys gC6) := by
    left
    exact Nat.le.refl
  have hmain := C6_finish_freezes gC6 noKeys rfl rfl hfin
  exact ⟨rfl, rfl, hfin, hmain.1, hmain.2.1 [noKeys, noKeys, noKeys]⟩

end Race
